import Mathlib

/-!
# Verification of the Braids macro-oscillator DSP plugin voice engine

Shallow embedding of `src/src/dsp/braids_plugin.cpp`.

Modelling conventions:
* C `float` values are modelled as exact rationals (`ℚ`); decimal literals such
  as `0.3f` are taken at their decimal value.  All claims under study are about
  ordering, clamping and state-machine structure, not about rounding at the
  last binary digit.
* C integer arithmetic is modelled on `ℤ`; a C cast `(int)x` from a float is
  truncation toward zero (`ratTruncZ`), C integer division `/` on a positive
  divisor is truncation toward zero (`cdivTrunc`).
* The macro oscillator (`braids::MacroOscillator`) and the state-variable
  filter (`braids::Svf`) are out of scope per the spec (§1): the oscillator is
  an opaque per-voice sample stream `osc : ℕ → ℤ`, and the filter is an opaque
  state type `F` with its operations collected in `FilterOps`.
* JSON text parsing, file I/O and `snprintf` buffers are host-interface
  concerns, out of scope per the spec (§1, §6): a preset file is modelled by
  the result of its field lookups (`PresetFile`), and the `state` key's
  snapshot is modelled by the key-value content of the emitted JSON object
  (`StateBlob`).
-/

set_option linter.unusedVariables false
set_option linter.unnecessarySimpa false

/-- Truncation toward zero of a rational, the behaviour of a C cast from a
floating-point value to an integer type. -/
def ratTruncZ (q : ℚ) : ℤ :=
  Int.sign q.num * ((q.num.natAbs / q.den : ℕ) : ℤ)

/-- C integer division truncates toward zero; this matches C's `/` for any
signs of the operands (divisor nonzero). -/
def cdivTrunc (a b : ℤ) : ℤ :=
  Int.sign a * Int.sign b * ((a.natAbs / b.natAbs : ℕ) : ℤ)

/-- Saturation of an accumulated sample to the signed 16-bit range, mirroring
the final clamps in `v2_render_block`. -/
def clamp16 (x : ℤ) : ℤ :=
  if 32767 < x then 32767 else if x < -32768 then -32768 else x

/-- Interleaved stereo output buffer: per frame, a left/right pair. -/
abbrev Buf := ℕ → ℤ × ℤ

/-! ## SimpleADSR envelope (braids_plugin.cpp lines 85-131) -/

/-- Envelope stage, mirroring `SimpleADSR::Stage`. -/
inductive Stage where
  | IDLE
  | ATTACK
  | DECAY
  | SUSTAIN
  | RELEASE
deriving DecidableEq, Repr

/-- The five-field envelope state, mirroring `struct SimpleADSR`. -/
structure SimpleADSR where
  stage : Stage
  level : ℚ
  attack_rate : ℚ
  decay_rate : ℚ
  sustain_level : ℚ
  release_rate : ℚ
deriving DecidableEq, Repr

/-- `SimpleADSR::init` sets `stage = IDLE; level = 0` and leaves the rate
fields alone. -/
def SimpleADSR.init (e : SimpleADSR) : SimpleADSR :=
  { e with stage := Stage.IDLE, level := 0 }

/-- The local lambda `time_to_rate` inside `SimpleADSR::set_params`:
`t = 0.001 + p*p*10; rate = 1/(t*44100)`. -/
def time_to_rate (p : ℚ) : ℚ :=
  1 / ((0.001 + p * p * 10) * 44100)

/-- `SimpleADSR::set_params` recomputes the three per-sample rates and the
sustain level; stage and level are untouched. -/
def SimpleADSR.set_params (e : SimpleADSR) (a d s r : ℚ) : SimpleADSR :=
  { e with
    attack_rate := time_to_rate a
    decay_rate := time_to_rate d
    sustain_level := s
    release_rate := time_to_rate r }

/-- `SimpleADSR::gate_on` forces the stage to attack. -/
def SimpleADSR.gate_on (e : SimpleADSR) : SimpleADSR :=
  { e with stage := Stage.ATTACK }

/-- `SimpleADSR::gate_off` forces the stage to release unless idle. -/
def SimpleADSR.gate_off (e : SimpleADSR) : SimpleADSR :=
  if e.stage ≠ Stage.IDLE then { e with stage := Stage.RELEASE } else e

/-- `SimpleADSR::is_active` reports `stage != IDLE`. -/
def SimpleADSR.is_active (e : SimpleADSR) : Bool :=
  decide (e.stage ≠ Stage.IDLE)

/-- `SimpleADSR::process`: advance the envelope one sample and return the
post-update level together with the new state (the C code mutates in place
and returns `level`). -/
def SimpleADSR.process (e : SimpleADSR) : SimpleADSR × ℚ :=
  match e.stage with
  | Stage.ATTACK =>
      let l1 := e.level + e.attack_rate
      if 1 ≤ l1 then
        let e' := { e with level := 1, stage := Stage.DECAY }
        (e', e'.level)
      else
        let e' := { e with level := l1 }
        (e', e'.level)
  | Stage.DECAY =>
      let l1 := e.level - e.decay_rate
      if l1 ≤ e.sustain_level then
        let e' := { e with level := e.sustain_level, stage := Stage.SUSTAIN }
        (e', e'.level)
      else
        let e' := { e with level := l1 }
        (e', e'.level)
  | Stage.SUSTAIN =>
      let e' := { e with level := e.sustain_level }
      (e', e'.level)
  | Stage.RELEASE =>
      let l1 := e.level - e.release_rate
      if l1 ≤ 0 then
        let e' := { e with level := 0, stage := Stage.IDLE }
        (e', e'.level)
      else
        let e' := { e with level := l1 }
        (e', e'.level)
  | Stage.IDLE =>
      let e' := { e with level := 0 }
      (e', e'.level)

/-- Envelope stepped `n` times (state part only). -/
def SimpleADSR.iter (e : SimpleADSR) : ℕ → SimpleADSR
  | 0 => e
  | n + 1 => ((SimpleADSR.iter e n).process).1

/-- The amplitude envelope first goes inactive at per-sample step `n`
(steps are counted from 0; the check in `v2_render_block` happens after the
`process()` call of the step). -/
def env_dies_at (e : SimpleADSR) (n : ℕ) : Prop :=
  (SimpleADSR.iter e (n + 1)).is_active = false ∧
    ∀ m ∈ List.range n, (SimpleADSR.iter e (m + 1)).is_active = true

/-- Modelled from the spec: the §4.1 transition table for `step()`, written
row by row ("attack: level += attack_rate; level≥1 → clamp to 1, go to decay",
and so on), to be compared against the source's `SimpleADSR::process`. -/
def spec_envelope_table_step (e : SimpleADSR) : SimpleADSR × ℚ :=
  match e.stage with
  | Stage.ATTACK =>
      let lvl := e.level + e.attack_rate
      if lvl ≥ 1 then ({ e with level := 1, stage := Stage.DECAY }, 1)
      else ({ e with level := lvl }, lvl)
  | Stage.DECAY =>
      let lvl := e.level - e.decay_rate
      if lvl ≤ e.sustain_level then
        ({ e with level := e.sustain_level, stage := Stage.SUSTAIN }, e.sustain_level)
      else ({ e with level := lvl }, lvl)
  | Stage.SUSTAIN => ({ e with level := e.sustain_level }, e.sustain_level)
  | Stage.RELEASE =>
      let lvl := e.level - e.release_rate
      if lvl ≤ 0 then ({ e with level := 0, stage := Stage.IDLE }, 0)
      else ({ e with level := lvl }, lvl)
  | Stage.IDLE => ({ e with level := 0 }, 0)

/-! ## Parameter store (braids_plugin.cpp lines 161-204) -/

/-- Parameter indices, mirroring `enum BraidsParam` (16 entries). -/
inductive BraidsParam where
  | PARAM_ENGINE
  | PARAM_TIMBRE
  | PARAM_COLOR
  | PARAM_ATTACK
  | PARAM_DECAY
  | PARAM_SUSTAIN
  | PARAM_RELEASE
  | PARAM_FM
  | PARAM_CUTOFF
  | PARAM_RESONANCE
  | PARAM_FILT_ENV
  | PARAM_F_ATTACK
  | PARAM_F_DECAY
  | PARAM_F_SUSTAIN
  | PARAM_F_RELEASE
  | PARAM_VOLUME
deriving DecidableEq, Repr, Fintype

export BraidsParam (PARAM_ENGINE PARAM_TIMBRE PARAM_COLOR PARAM_ATTACK
  PARAM_DECAY PARAM_SUSTAIN PARAM_RELEASE PARAM_FM PARAM_CUTOFF
  PARAM_RESONANCE PARAM_FILT_ENV PARAM_F_ATTACK PARAM_F_DECAY PARAM_F_SUSTAIN
  PARAM_F_RELEASE PARAM_VOLUME)

/-- Declared type of a parameter, from `param_helper.h`'s `PARAM_TYPE_*`. -/
inductive ParamType where
  | PARAM_TYPE_INT
  | PARAM_TYPE_FLOAT
deriving DecidableEq, Repr

export ParamType (PARAM_TYPE_INT PARAM_TYPE_FLOAT)

/-- One row of the parameter table, mirroring `param_def_t`. -/
structure param_def_t where
  key : String
  name : String
  ptype : ParamType
  index : BraidsParam
  min_val : ℚ
  max_val : ℚ
deriving DecidableEq, Repr

/-- `g_shape_names`: the 47 algorithm display names from the source. -/
def g_shape_names : List String :=
  ["CSAW", "MORPH", "/\\-_", "SINE^", "BUZZ",
   "SQR<", "SAW<", "SQsync", "SWsync",
   "3xSAW", "3xSQR", "3xTRI", "3xSIN", "3xRNG",
   "SWARM", "COMB", "TOY",
   "ZLPF", "ZPKF", "ZBPF", "ZHPF",
   "VOSIM", "VOWL", "V.FOF",
   "HARM",
   "FM", "FBFM", "WTFM",
   "PLUK", "BOWD", "BLOW", "FLUT",
   "BELL", "DRUM", "KICK", "CYMB", "SNAR",
   "WTBL", "WMAP", "WLIN", "WTx4",
   "NOIS", "TWNQ", "CLKN", "GRN", "PART",
   "QPSK"]

/-- Modelled from the spec: `NUM_SHAPES` expands to
`MACRO_OSC_SHAPE_LAST_ACCESSIBLE_FROM_META + 1` from the vendored braids
header (not under `src/`); the source's own comment and name table fix 47
accessible algorithms, so `NUM_SHAPES = 47 = g_shape_names.length`. -/
def NUM_SHAPES : ℕ := g_shape_names.length

/-- `g_shadow_params`: the declarative key/type/index/range table. -/
def g_shadow_params : List param_def_t :=
  [⟨"engine", "Engine", PARAM_TYPE_INT, PARAM_ENGINE, 0, ((NUM_SHAPES : ℚ) - 1)⟩,
   ⟨"timbre", "Timbre", PARAM_TYPE_FLOAT, PARAM_TIMBRE, 0, 1⟩,
   ⟨"color", "Color", PARAM_TYPE_FLOAT, PARAM_COLOR, 0, 1⟩,
   ⟨"attack", "Attack", PARAM_TYPE_FLOAT, PARAM_ATTACK, 0, 1⟩,
   ⟨"decay", "Decay", PARAM_TYPE_FLOAT, PARAM_DECAY, 0, 1⟩,
   ⟨"sustain", "Sustain", PARAM_TYPE_FLOAT, PARAM_SUSTAIN, 0, 1⟩,
   ⟨"release", "Release", PARAM_TYPE_FLOAT, PARAM_RELEASE, 0, 1⟩,
   ⟨"fm", "FM", PARAM_TYPE_FLOAT, PARAM_FM, 0, 1⟩,
   ⟨"cutoff", "Cutoff", PARAM_TYPE_FLOAT, PARAM_CUTOFF, 0, 1⟩,
   ⟨"resonance", "Resonance", PARAM_TYPE_FLOAT, PARAM_RESONANCE, 0, 1⟩,
   ⟨"filt_env", "Filt Env", PARAM_TYPE_FLOAT, PARAM_FILT_ENV, 0, 1⟩,
   ⟨"f_attack", "F.Attack", PARAM_TYPE_FLOAT, PARAM_F_ATTACK, 0, 1⟩,
   ⟨"f_decay", "F.Decay", PARAM_TYPE_FLOAT, PARAM_F_DECAY, 0, 1⟩,
   ⟨"f_sustain", "F.Sustain", PARAM_TYPE_FLOAT, PARAM_F_SUSTAIN, 0, 1⟩,
   ⟨"f_release", "F.Release", PARAM_TYPE_FLOAT, PARAM_F_RELEASE, 0, 1⟩,
   ⟨"volume", "Volume", PARAM_TYPE_FLOAT, PARAM_VOLUME, 0, 1⟩]

/-- Point update of the parameter array (`inst->params[index] = fval`). -/
def updParam (ps : BraidsParam → ℚ) (i : BraidsParam) (v : ℚ) :
    BraidsParam → ℚ :=
  fun j => if j = i then v else ps j

/-- The sequential clamp used by `v2_set_param`:
`if (fval < min) fval = min; if (fval > max) fval = max`. -/
def clampEntry (d : param_def_t) (fval : ℚ) : ℚ :=
  let v1 := if fval < d.min_val then d.min_val else fval
  if d.max_val < v1 then d.max_val else v1

/-- The sequential integer clamp used for `octave_transpose`:
`if (v < lo) v = lo; if (v > hi) v = hi`. -/
def clampZ (lo hi v : ℤ) : ℤ :=
  let v1 := if v < lo then lo else v
  if hi < v1 then hi else v1

/-! ## Voices, presets and the instance (braids_plugin.cpp lines 181-243) -/

/-- Opaque filter capability (spec §6): the operations `v2_render_block` and
`apply_params_to_voice` invoke on a `braids::Svf` value of type `F`.
`set_frequency_process` combines `set_frequency(cutoff)` followed by
`Process(sample)`, returning the filtered sample and the new filter state. -/
structure FilterOps (F : Type) where
  set_resonance : F → ℤ → F
  set_frequency_process : F → ℤ → ℤ → ℤ × F

/-- One voice, mirroring `struct BraidsVoice`.  The oscillator state and its
scratch buffers are opaque per the spec (§1) and are not carried here; the
oscillator's output is supplied to the renderer as an opaque sample stream. -/
structure BraidsVoice (F : Type) where
  amp_env : SimpleADSR
  filt_env : SimpleADSR
  svf : F
  note : ℤ
  velocity : ℤ
  active : Bool
  gate : Bool
  age : ℤ

/-- A preset, mirroring `struct BraidsPreset`. -/
structure BraidsPreset where
  name : String
  params : BraidsParam → ℚ
  octave_transpose : ℤ

/-- `MAX_PRESETS` from the source. -/
def MAX_PRESETS : ℕ := 64

/-- `MAX_VOICES` from the source. -/
def MAX_VOICES : ℕ := 4

/-- `BRAIDS_BLOCK_SIZE` from the source. -/
def BRAIDS_BLOCK_SIZE : ℕ := 24

/-- The plugin instance, mirroring `braids_instance_t` (the scratch render
buffer and module directory string are host-interface details left out). -/
structure braids_instance_t (F : Type) where
  voices : Fin 4 → BraidsVoice F
  params : BraidsParam → ℚ
  octave_transpose : ℤ
  voice_counter : ℤ
  presets : List BraidsPreset
  current_preset : ℤ
  preset_name : String

/-- `inst->preset_count` (the source keeps an explicit counter equal to the
number of presets loaded so far). -/
def braids_instance_t.preset_count {F : Type} (inst : braids_instance_t F) : ℤ :=
  (inst.presets.length : ℤ)

/-- Point update of the voice array. -/
def updVoices {F : Type} (vs : Fin 4 → BraidsVoice F) (i : Fin 4)
    (v : BraidsVoice F) : Fin 4 → BraidsVoice F :=
  fun j => if j = i then v else vs j

/-! ## Voice management (braids_plugin.cpp lines 269-296) -/

/-- `find_free_voice`: first inactive voice in index order, else the voice
with the minimum age (steal oldest); the second loop keeps the earliest index
on age ties because it updates only on a strictly smaller age. -/
def find_free_voice {F : Type} (voices : Fin 4 → BraidsVoice F) : Fin 4 :=
  match ([0, 1, 2, 3] : List (Fin 4)).find? (fun i => !(voices i).active) with
  | some i => i
  | none =>
      (([1, 2, 3] : List (Fin 4)).foldl
        (fun p i => if (voices i).age < p.2 then (i, (voices i).age) else p)
        ((0 : Fin 4), (voices 0).age)).1

/-- The scan loop of `find_voice_for_note`, with the `releasing` accumulator;
`none` models the C sentinel `-1`. -/
def find_voice_for_note_loop {F : Type} (voices : Fin 4 → BraidsVoice F)
    (note : ℤ) : List (Fin 4) → Option (Fin 4) → Option (Fin 4)
  | [], releasing => releasing
  | i :: rest, releasing =>
      if (voices i).active = true ∧ (voices i).note = note then
        if (voices i).gate = true then some i
        else find_voice_for_note_loop voices note rest (some i)
      else find_voice_for_note_loop voices note rest releasing

/-- `find_voice_for_note`: prefer a gated (held) match, returned immediately;
otherwise the last releasing match seen; `-1` when no active voice matches. -/
def find_voice_for_note {F : Type} (voices : Fin 4 → BraidsVoice F)
    (note : ℤ) : ℤ :=
  match find_voice_for_note_loop voices note ([0, 1, 2, 3] : List (Fin 4)) none with
  | some i => (i : ℤ)
  | none => -1

/-! ## Presets (braids_plugin.cpp lines 333-434) -/

/-- `v2_apply_preset`: no-op on an out-of-range index, otherwise copy the
preset name, all sixteen parameter values and the octave transpose into the
live instance. -/
def v2_apply_preset {F : Type} (inst : braids_instance_t F)
    (preset_idx : ℤ) : braids_instance_t F :=
  if preset_idx < 0 ∨ inst.preset_count ≤ preset_idx then inst
  else
    let p := inst.presets.getD preset_idx.toNat ⟨"", fun _ => 0, 0⟩
    { inst with
      preset_name := p.name
      params := p.params
      octave_transpose := p.octave_transpose }

/-- A preset file's parse results.  JSON text extraction
(`json_get_string` / `json_get_number`) is a host-interface concern (spec §1):
`name` and `engineStr` are the string lookups and `fields k` is the numeric
lookup `json_get_number(data, k, &fval)`. -/
structure PresetFile where
  name : Option String
  engineStr : Option String
  fields : String → Option ℚ

/-- `load_braids_preset`: refuse past capacity; otherwise build the preset
from the field lookups, substituting the documented default for every absent
field, clamping only `octave_transpose`, and append it. -/
def load_braids_preset {F : Type} (inst : braids_instance_t F)
    (pf : PresetFile) : braids_instance_t F :=
  if MAX_PRESETS ≤ inst.presets.length then inst
  else
    let name :=
      match pf.name with
      | some s => s
      | none => "Preset " ++ toString inst.presets.length
    let engine : ℚ :=
      match pf.engineStr with
      | some s => (((g_shape_names.findIdx? (fun t => t == s)).getD 0 : ℕ) : ℚ)
      | none =>
          match pf.fields "engine" with
          | some fv => fv
          | none => 0
    let getF := fun (k : String) (dflt : ℚ) => (pf.fields k).getD dflt
    let params : BraidsParam → ℚ := fun p =>
      match p with
      | PARAM_ENGINE => engine
      | PARAM_TIMBRE => getF "timbre" 0.5
      | PARAM_COLOR => getF "color" 0.5
      | PARAM_ATTACK => getF "attack" 0
      | PARAM_DECAY => getF "decay" 0.5
      | PARAM_SUSTAIN => getF "sustain" 1
      | PARAM_RELEASE => getF "release" 0.3
      | PARAM_FM => getF "fm" 0
      | PARAM_CUTOFF => getF "cutoff" 1
      | PARAM_RESONANCE => getF "resonance" 0
      | PARAM_FILT_ENV => getF "filt_env" 0
      | PARAM_F_ATTACK => getF "f_attack" 0
      | PARAM_F_DECAY => getF "f_decay" 0.3
      | PARAM_F_SUSTAIN => getF "f_sustain" 0
      | PARAM_F_RELEASE => getF "f_release" 0.3
      | PARAM_VOLUME => getF "volume" 0.7
    let octave : ℤ :=
      match pf.fields "octave_transpose" with
      | some fv => clampZ (-3) 3 (ratTruncZ fv)
      | none => 0
    { inst with presets := inst.presets ++ [⟨name, params, octave⟩] }

/-! ## v2_set_param branches (braids_plugin.cpp lines 658-746) -/

/-- The `octave_transpose` branch of `v2_set_param` (value after `atoi`). -/
def v2_set_param_octave {F : Type} (inst : braids_instance_t F)
    (v : ℤ) : braids_instance_t F :=
  { inst with octave_transpose := clampZ (-3) 3 v }

/-- The `preset` branch of `v2_set_param`: on a valid index, kill all voices
(flags cleared, both envelopes re-initialised), record and apply the preset;
out-of-range indices do nothing. -/
def v2_set_param_preset {F : Type} (inst : braids_instance_t F)
    (idx : ℤ) : braids_instance_t F :=
  if 0 ≤ idx ∧ idx < inst.preset_count then
    let killed :=
      { inst with
        voices := fun i =>
          { inst.voices i with
            active := false
            gate := false
            amp_env := (inst.voices i).amp_env.init
            filt_env := (inst.voices i).filt_env.init } }
    v2_apply_preset { killed with current_preset := idx } idx
  else inst

/-- The final named-parameter branch of `v2_set_param`: linear search of
`g_shadow_params` for the key, clamp to the declared range, store; silently
ignore an unknown key.  `fval` is the value after `atof`. -/
def v2_set_param_named {F : Type} (inst : braids_instance_t F)
    (key : String) (fval : ℚ) : braids_instance_t F :=
  match g_shadow_params.find? (fun d => d.key == key) with
  | some d => { inst with params := updParam inst.params d.index (clampEntry d fval) }
  | none => inst

/-! ## State snapshot (braids_plugin.cpp lines 663-693 and 838-854) -/

/-- The key/value content of the JSON object exchanged through the reserved
`state` key.  The JSON text itself is a host-interface concern (spec §6);
`params k` models `json_get_number` on the blob for key `k`. -/
structure StateBlob where
  preset : Option ℚ
  octave : Option ℚ
  params : String → Option ℚ

/-- `%.4f` formatting: round to four decimal places. -/
def round4 (q : ℚ) : ℚ :=
  ((⌊q * 10000 + 1 / 2⌋ : ℤ) : ℚ) / 10000

/-- The `state` branch of `v2_get_param`: emit the current preset index and
octave transpose as integers, then every table entry — `%d` (truncation) for
int-typed entries, `%.4f` for float-typed ones. -/
def v2_get_param_state {F : Type} (inst : braids_instance_t F) : StateBlob :=
  { preset := some ((inst.current_preset : ℚ))
    octave := some ((inst.octave_transpose : ℚ))
    params := fun k =>
      match g_shadow_params.find? (fun d => d.key == k) with
      | some d =>
          some (if d.ptype = PARAM_TYPE_INT
                then ((ratTruncZ (inst.params d.index) : ℤ) : ℚ)
                else round4 (inst.params d.index))
      | none => none }

/-- One iteration of the restore loop in the `state` branch of
`v2_set_param`: if the key is present in the blob, clamp and store. -/
def restore_param_step (g : String → Option ℚ) (ps : BraidsParam → ℚ)
    (d : param_def_t) : BraidsParam → ℚ :=
  match g d.key with
  | some v => updParam ps d.index (clampEntry d v)
  | none => ps

/-- The first half of the `state` branch of `v2_set_param`: restore the
preset (when the index is valid), then the octave transpose (clamped). -/
def state_restore_head {F : Type} (inst : braids_instance_t F)
    (blob : StateBlob) : braids_instance_t F :=
  let inst1 :=
    match blob.preset with
    | some f =>
        let idx := ratTruncZ f
        if 0 ≤ idx ∧ idx < inst.preset_count
        then v2_apply_preset { inst with current_preset := idx } idx
        else inst
    | none => inst
  match blob.octave with
  | some f => { inst1 with octave_transpose := clampZ (-3) 3 (ratTruncZ f) }
  | none => inst1

/-- The `state` branch of `v2_set_param`: restore the preset first (when the
index is valid), then the octave transpose (clamped), then override every
parameter present in the blob (clamped to its declared range). -/
def v2_set_param_state {F : Type} (inst : braids_instance_t F)
    (blob : StateBlob) : braids_instance_t F :=
  let inst2 := state_restore_head inst blob
  { inst2 with
    params := g_shadow_params.foldl (restore_param_step blob.params) inst2.params }

/-! ## Parameter application to a voice (braids_plugin.cpp lines 485-510) -/

/-- `apply_params_to_voice`: push the current store into a voice.  The
oscillator's `set_shape`/`set_parameters` calls mutate only the opaque
oscillator (spec §1); the filter resonance is forwarded to the opaque filter
and both envelopes' rates are recomputed from the store. -/
def apply_params_to_voice {F : Type} (ops : FilterOps F)
    (params : BraidsParam → ℚ) (v : BraidsVoice F) : BraidsVoice F :=
  let reso_val := ratTruncZ (params PARAM_RESONANCE * 32767)
  { v with
    svf := ops.set_resonance v.svf reso_val
    amp_env := v.amp_env.set_params (params PARAM_ATTACK) (params PARAM_DECAY)
      (params PARAM_SUSTAIN) (params PARAM_RELEASE)
    filt_env := v.filt_env.set_params (params PARAM_F_ATTACK) (params PARAM_F_DECAY)
      (params PARAM_F_SUSTAIN) (params PARAM_F_RELEASE) }

/-! ## Default instance (braids_plugin.cpp lines 513-568) -/

/-- Envelope state after `calloc` zero-fill followed by `init()`. -/
def env0 : SimpleADSR := ⟨Stage.IDLE, 0, 0, 0, 0, 0⟩

/-- Voice state after `v2_create_instance`'s per-voice initialisation. -/
def voice0 : BraidsVoice Unit :=
  { amp_env := env0, filt_env := env0, svf := (), note := 0, velocity := 0,
    active := false, gate := false, age := 0 }

/-- The instance `v2_create_instance` builds when no preset files are found:
engine defaults in the parameter table, octave 0, all voices idle. -/
def inst0 : braids_instance_t Unit :=
  { voices := fun _ => voice0
    params := fun p =>
      match p with
      | PARAM_ENGINE => 0
      | PARAM_TIMBRE => 0.5
      | PARAM_COLOR => 0.5
      | PARAM_ATTACK => 0
      | PARAM_DECAY => 0.5
      | PARAM_SUSTAIN => 1
      | PARAM_RELEASE => 0.3
      | PARAM_FM => 0
      | PARAM_CUTOFF => 1
      | PARAM_RESONANCE => 0
      | PARAM_FILT_ENV => 0
      | PARAM_F_ATTACK => 0
      | PARAM_F_DECAY => 0.3
      | PARAM_F_SUSTAIN => 0
      | PARAM_F_RELEASE => 0.3
      | PARAM_VOLUME => 0.7
    octave_transpose := 0
    voice_counter := 0
    presets := []
    current_preset := 0
    preset_name := "Init" }

/-! ## MIDI handler (braids_plugin.cpp lines 579-655) -/

/-- The state a voice is left in by the note-off handling of `v2_on_midi`:
gate cleared, both envelopes sent to release (via `gate_off`), everything
else untouched. -/
def gate_off_voice {F : Type} (v : BraidsVoice F) : BraidsVoice F :=
  { v with
    gate := false
    amp_env := v.amp_env.gate_off
    filt_env := v.filt_env.gate_off }

/-- The note transform applied to note-on/note-off data: octave transpose by
±12 semitones per octave, then clamp into `[0, 127]`. -/
def midi_note_transform (octave : ℤ) (data1 : ℕ) : ℤ :=
  let n0 : ℤ := (data1 : ℤ) + octave * 12
  let n1 := if n0 < 0 then 0 else n0
  if 127 < n1 then 127 else n1

/-- `v2_on_midi`, over the raw message bytes.  The pitch-bend case and the
`set_pitch`/`Strike` calls of the note-on path act only on the opaque
oscillator (spec §1) and therefore leave the modelled state as-is; everything
else is carried over verbatim.  `find_voice_for_note_loop` returning `none`
models the `vi < 0` check. -/
def v2_on_midi {F : Type} (ops : FilterOps F) (inst : braids_instance_t F)
    (msg : List ℕ) : braids_instance_t F :=
  if msg.length < 2 then inst
  else
    let status := Nat.land (msg.getD 0 0) 240
    let data1 : ℕ := msg.getD 1 0
    let data2 : ℕ := if 2 < msg.length then msg.getD 2 0 else 0
    let note : ℤ :=
      if status = 144 ∨ status = 128 then
        midi_note_transform inst.octave_transpose data1
      else (data1 : ℤ)
    if status = 144 then
      if 0 < data2 then
        let vi := find_free_voice inst.voices
        let counter := inst.voice_counter + 1
        let v0 := inst.voices vi
        let v1 := { v0 with
          note := note
          velocity := (data2 : ℤ)
          active := true
          gate := true
          age := counter }
        let v2 := apply_params_to_voice ops inst.params v1
        let v3 := { v2 with
          amp_env := v2.amp_env.gate_on
          filt_env := v2.filt_env.gate_on }
        { inst with voices := updVoices inst.voices vi v3, voice_counter := counter }
      else
        match find_voice_for_note_loop inst.voices note ([0, 1, 2, 3] : List (Fin 4)) none with
        | some vi =>
            let v := inst.voices vi
            let v' := { v with
              gate := false
              amp_env := v.amp_env.gate_off
              filt_env := v.filt_env.gate_off }
            { inst with voices := updVoices inst.voices vi v' }
        | none => inst
    else if status = 128 then
      match find_voice_for_note_loop inst.voices note ([0, 1, 2, 3] : List (Fin 4)) none with
      | some vi =>
          let v := inst.voices vi
          let v' := { v with
            gate := false
            amp_env := v.amp_env.gate_off
            filt_env := v.filt_env.gate_off }
          { inst with voices := updVoices inst.voices vi v' }
      | none => inst
    else if status = 176 then
      if data1 = 1 then
        { inst with params := updParam inst.params PARAM_FM ((data2 : ℚ) / 127) }
      else inst
    else inst

/-! ## Block renderer (braids_plugin.cpp lines 901-991) -/

/-- The per-callback constants read from the store at the top of
`v2_render_block`. -/
structure RenderCfg where
  gain : ℚ
  base_cutoff : ℚ
  filt_env_amount : ℚ
  use_filter : Bool

/-- Build the render configuration from the parameter store, including the
filter-bypass test
`cutoff < 0.99 || resonance > 0.01 || filt_env > 0.01`. -/
def mkRenderCfg (params : BraidsParam → ℚ) : RenderCfg :=
  { gain := params PARAM_VOLUME / (MAX_VOICES : ℚ)
    base_cutoff := params PARAM_CUTOFF
    filt_env_amount := params PARAM_FILT_ENV
    use_filter := decide (params PARAM_CUTOFF < 0.99 ∨ 0.01 < params PARAM_RESONANCE
      ∨ 0.01 < params PARAM_FILT_ENV) }

/-- The value computation of one sample iteration of `v2_render_block`: scale
the oscillator sample by the amplitude envelope, optionally filter it with
the envelope-modulated cutoff, scale by velocity and by the output gain.
Returns the value to accumulate together with the new filter state.  `v1` is
the voice after both `process()` calls of this sample. -/
def sample_value {F : Type} (ops : FilterOps F) (cfg : RenderCfg) (osc : ℕ → ℤ)
    (base : ℕ) (v1 : BraidsVoice F) (amp filt_val : ℚ) : ℤ × F :=
  let sample0 : ℤ := osc base
  let sample1 : ℤ := ratTruncZ ((sample0 : ℚ) * amp)
  let fstep : ℤ × F :=
    if cfg.use_filter then
      let mod_cutoff0 := cfg.base_cutoff + filt_val * cfg.filt_env_amount
      let mod_cutoff := if 1 < mod_cutoff0 then 1 else mod_cutoff0
      let cutoff_freq := ratTruncZ (mod_cutoff * 127) * 128
      ops.set_frequency_process v1.svf cutoff_freq sample1
    else (sample1, v1.svf)
  let sample3 := cdivTrunc (fstep.1 * v1.velocity) 127
  (ratTruncZ ((sample3 : ℚ) * cfg.gain), fstep.2)

/-- The mixing tail of one sample iteration of `v2_render_block`: accumulate
the sample value into both stereo channels of the frame at `base` with
independent 16-bit saturation. -/
def sample_mix {F : Type} (ops : FilterOps F) (cfg : RenderCfg) (osc : ℕ → ℤ)
    (base : ℕ) (v1 : BraidsVoice F) (amp filt_val : ℚ) (buf : Buf) :
    BraidsVoice F × Buf :=
  let a := sample_value ops cfg osc base v1 amp filt_val
  ({ v1 with svf := a.2 },
    fun n => if n = base
      then (clamp16 ((buf n).1 + a.1), clamp16 ((buf n).2 + a.1))
      else buf n)

/-- The per-sample loop of `v2_render_block` for one voice, processing
`count` samples whose flat frame indices start at `base`: advance both
envelopes, deactivate the voice and stop if it is ungated and its amplitude
envelope has gone idle, otherwise mix the sample into the output. -/
def render_samples {F : Type} (ops : FilterOps F) (cfg : RenderCfg)
    (osc : ℕ → ℤ) (base count : ℕ) (v : BraidsVoice F) (buf : Buf) :
    BraidsVoice F × Buf :=
  match count with
  | 0 => (v, buf)
  | c + 1 =>
      let pa := v.amp_env.process
      let pf := v.filt_env.process
      let v1 := { v with amp_env := pa.1, filt_env := pf.1 }
      if v.gate = false ∧ pa.1.is_active = false then
        ({ v1 with active := false }, buf)
      else
        let r := sample_mix ops cfg osc base v1 pa.2 pf.2 buf
        render_samples ops cfg osc (base + 1) c r.1 r.2

/-- The sub-block loop of `v2_render_block` for one voice: consume the
remaining frames in chunks of at most `BRAIDS_BLOCK_SIZE`, stopping early
when the voice deactivates. -/
def render_blocks {F : Type} (ops : FilterOps F) (cfg : RenderCfg)
    (osc : ℕ → ℤ) (remaining base : ℕ) (v : BraidsVoice F) (buf : Buf) :
    BraidsVoice F × Buf :=
  if h : remaining = 0 then (v, buf)
  else
    if (render_samples ops cfg osc base (min BRAIDS_BLOCK_SIZE remaining) v buf).1.active
        = true then
      render_blocks ops cfg osc (remaining - min BRAIDS_BLOCK_SIZE remaining)
        (base + min BRAIDS_BLOCK_SIZE remaining)
        (render_samples ops cfg osc base (min BRAIDS_BLOCK_SIZE remaining) v buf).1
        (render_samples ops cfg osc base (min BRAIDS_BLOCK_SIZE remaining) v buf).2
    else render_samples ops cfg osc base (min BRAIDS_BLOCK_SIZE remaining) v buf
termination_by remaining
decreasing_by
  have hb : 0 < min BRAIDS_BLOCK_SIZE remaining := by
    have : 0 < remaining := Nat.pos_of_ne_zero h
    simp [BRAIDS_BLOCK_SIZE]
    omega
  omega

/-- The body of the `for (vi...)` loop of `v2_render_block` for one voice:
skip inactive voices, otherwise re-apply the current parameters (the
oscillator's pitch/FM update touches only the opaque oscillator) and run the
sub-block loop over all requested frames. -/
def render_voice {F : Type} (ops : FilterOps F) (params : BraidsParam → ℚ)
    (osc : ℕ → ℤ) (frames : ℕ) (v : BraidsVoice F) (buf : Buf) :
    BraidsVoice F × Buf :=
  if v.active = false then (v, buf)
  else
    let v1 := apply_params_to_voice ops params v
    render_blocks ops (mkRenderCfg params) osc frames 0 v1 buf

/-- `v2_render_block`: zero the interleaved output, then let each voice in
index order accumulate into it. -/
def v2_render_block {F : Type} (ops : FilterOps F) (inst : braids_instance_t F)
    (osc : Fin 4 → ℕ → ℤ) (frames : ℕ) : braids_instance_t F × Buf :=
  let buf0 : Buf := fun _ => (0, 0)
  let res := ([0, 1, 2, 3] : List (Fin 4)).foldl
    (fun (acc : (Fin 4 → BraidsVoice F) × Buf) (vi : Fin 4) =>
      let r := render_voice ops inst.params (osc vi) frames (acc.1 vi) acc.2
      (updVoices acc.1 vi r.1, r.2))
    (inst.voices, buf0)
  ({ inst with voices := res.1 }, res.2)

/-- The all-zero output buffer (`memset` at the top of `v2_render_block`). -/
def zeroBuf : Buf := fun _ => (0, 0)

/-- A trivial concrete filter for witnesses. -/
def unitOps : FilterOps Unit :=
  { set_resonance := fun _ _ => ()
    set_frequency_process := fun _ _ s => (s, ()) }

/-- An active voice holding `note` with the key still down. -/
def heldMatch {F : Type} (voices : Fin 4 → BraidsVoice F) (note : ℤ)
    (i : Fin 4) : Prop :=
  (voices i).active = true ∧ (voices i).note = note ∧ (voices i).gate = true

/-- An active voice holding `note` already released (fading out). -/
def releasingMatch {F : Type} (voices : Fin 4 → BraidsVoice F) (note : ℤ)
    (i : Fin 4) : Prop :=
  (voices i).active = true ∧ (voices i).note = note ∧ (voices i).gate = false

instance heldMatch_dec {F : Type} (voices : Fin 4 → BraidsVoice F) (note : ℤ)
    (i : Fin 4) : Decidable (heldMatch voices note i) := by
  unfold heldMatch
  infer_instance

instance releasingMatch_dec {F : Type} (voices : Fin 4 → BraidsVoice F)
    (note : ℤ) (i : Fin 4) : Decidable (releasingMatch voices note i) := by
  unfold releasingMatch
  infer_instance

/-- A preset file whose `timbre` field carries the out-of-range value 5 and
which omits every other field. -/
def pf_timbre5 : PresetFile :=
  { name := none
    engineStr := none
    fields := fun k => if k = "timbre" then some 5 else none }

/-- A reachable instance: the default instance after
`set_param("timbre", "0.33333")`. -/
def c7_inst : braids_instance_t Unit :=
  v2_set_param_named inst0 "timbre" (33333 / 100000)

/-- A reachable instance whose timbre is 5 — on the four-decimal grid but
outside the declared `[0, 1]` range: the default instance after loading and
applying a preset file with `"timbre": 5` (stored unclamped by
`load_braids_preset`). -/
def c7_inst_b : braids_instance_t Unit :=
  v2_apply_preset (load_braids_preset inst0 pf_timbre5) 0

/-- All-zero parameter store for the render witness. -/
def c2w_params : BraidsParam → ℚ := fun _ => 0

/-- Silent oscillator stream for the render witness. -/
def c2w_osc : ℕ → ℤ := fun _ => 0

/-- A voice in release with a level small enough that one envelope step
exhausts it. -/
def c2w_voice : BraidsVoice Unit :=
  { voice0 with
    active := true
    gate := false
    amp_env :=
      { stage := Stage.RELEASE
        level := 1 / 100
        attack_rate := 0
        decay_rate := 0
        sustain_level := 0
        release_rate := 0 } }

/-- Concrete instance with note 60 held on voice 2. -/
def c10w_inst : braids_instance_t Unit :=
  { inst0 with
    voices := fun i =>
      if i = 2 then { voice0 with active := true, note := 60, gate := true }
      else voice0 }

/-- Concrete voice array: voices 0 and 1 active, 2 and 3 free. -/
def c5w_voices_a : Fin 4 → BraidsVoice Unit := fun i =>
  match i with
  | 0 => { voice0 with active := true, age := 1 }
  | 1 => { voice0 with active := true, age := 2 }
  | 2 => voice0
  | 3 => voice0

/-- Concrete voice array: all active, minimum age at voice 3. -/
def c5w_voices_b : Fin 4 → BraidsVoice Unit := fun i =>
  match i with
  | 0 => { voice0 with active := true, age := 4 }
  | 1 => { voice0 with active := true, age := 3 }
  | 2 => { voice0 with active := true, age := 5 }
  | 3 => { voice0 with active := true, age := 2 }

/-- Concrete voice array: note 60 held on voice 2, releasing on voices 1, 3. -/
def c6w_voices_a : Fin 4 → BraidsVoice Unit := fun i =>
  match i with
  | 0 => voice0
  | 1 => { voice0 with active := true, note := 60, gate := false }
  | 2 => { voice0 with active := true, note := 60, gate := true }
  | 3 => { voice0 with active := true, note := 60, gate := false }

/-- Concrete voice array: note 60 releasing on voices 1 and 3, nothing held. -/
def c6w_voices_b : Fin 4 → BraidsVoice Unit := fun i =>
  match i with
  | 0 => voice0
  | 1 => { voice0 with active := true, note := 60, gate := false }
  | 2 => { voice0 with active := true, note := 61, gate := true }
  | 3 => { voice0 with active := true, note := 60, gate := false }

theorem ratTruncZ_intCast (k : ℤ) : ratTruncZ (k : ℚ) = k := by
  unfold ratTruncZ
  rw [Rat.num_intCast, Rat.den_intCast]
  simp [Int.sign_mul_abs]

theorem clamp16_le (x : ℤ) : -32768 ≤ clamp16 x ∧ clamp16 x ≤ 32767 := by
  unfold clamp16
  split_ifs <;> omega

theorem clampEntry_bounds (d : param_def_t) (h : d.min_val ≤ d.max_val)
    (fval : ℚ) :
    d.min_val ≤ clampEntry d fval ∧ clampEntry d fval ≤ d.max_val := by
  simp only [clampEntry]
  split_ifs <;> constructor <;> linarith

theorem clampEntry_of_bounds (d : param_def_t) (fval : ℚ)
    (h1 : d.min_val ≤ fval) (h2 : fval ≤ d.max_val) :
    clampEntry d fval = fval := by
  simp only [clampEntry]
  split_ifs <;> linarith

theorem clampZ_of_bounds (lo hi v : ℤ) (h1 : lo ≤ v) (h2 : v ≤ hi) :
    clampZ lo hi v = v := by
  simp only [clampZ]
  split_ifs <;> omega

theorem updParam_same (ps : BraidsParam → ℚ) (i : BraidsParam) (v : ℚ) :
    updParam ps i v i = v := by
  simp [updParam]

theorem time_to_rate_pos (p : ℚ) : 0 < time_to_rate p := by
  unfold time_to_rate
  have hp : 0 ≤ p * p := mul_self_nonneg p
  positivity

theorem time_to_rate_lt (p1 p2 : ℚ) (h0 : 0 ≤ p1) (h12 : p1 < p2) :
    time_to_rate p2 < time_to_rate p1 := by
  unfold time_to_rate
  have hsq : p1 * p1 < p2 * p2 := mul_self_lt_mul_self h0 h12
  have h1 : (0 : ℚ) < (0.001 + p1 * p1 * 10) * 44100 := by
    have := mul_self_nonneg p1
    positivity
  have h2 : (0.001 + p1 * p1 * 10) * 44100 < (0.001 + p2 * p2 * 10) * 44100 := by
    nlinarith
  exact one_div_lt_one_div_of_lt h1 h2

/-- **C3.** The envelope's `process()` follows the spec's §4.1 transition
table exactly in every starting state — attack adds `attack_rate` and clamps
to 1 into decay, decay subtracts `decay_rate` and clamps to `sustain_level`
into sustain, sustain holds `sustain_level`, release subtracts `release_rate`
and clamps to 0 into idle, idle holds 0 — and the returned value is the
post-update level. -/
theorem c3_envelope_step_matches_spec_table (e : SimpleADSR) :
    SimpleADSR.process e = spec_envelope_table_step e ∧
      (SimpleADSR.process e).2 = (SimpleADSR.process e).1.level := by
  rcases e with ⟨st, l, a, d, s, r⟩
  cases st <;>
    simp [SimpleADSR.process, spec_envelope_table_step, ge_iff_le] <;>
    split_ifs <;> simp

/-- **C8.** The time-to-rate mapping used by `SimpleADSR::set_params` is
strictly decreasing on `[0,1]`: for stage parameter values `p1 < p2`, the
derived per-sample rate at `p2` is smaller than at `p1`, for each of the
attack, decay and release stages. -/
theorem c8_time_to_rate_antitone (e : SimpleADSR) (a d s r p1 p2 : ℚ)
    (h0 : 0 ≤ p1) (h12 : p1 < p2) (h21 : p2 ≤ 1) :
    (SimpleADSR.set_params e p2 d s r).attack_rate
      < (SimpleADSR.set_params e p1 d s r).attack_rate ∧
    (SimpleADSR.set_params e a p2 s r).decay_rate
      < (SimpleADSR.set_params e a p1 s r).decay_rate ∧
    (SimpleADSR.set_params e a d s p2).release_rate
      < (SimpleADSR.set_params e a d s p1).release_rate := by
  refine ⟨?_, ?_, ?_⟩ <;>
    simpa [SimpleADSR.set_params] using time_to_rate_lt p1 p2 h0 h12

/-- Witness for C8 at `p1 = 0`, `p2 = 1`. -/
theorem c8_time_to_rate_antitone_witness :
    (0 : ℚ) ≤ 0 ∧ (0 : ℚ) < 1 ∧ (1 : ℚ) ≤ 1 ∧
    ((SimpleADSR.set_params env0 1 0 0 0).attack_rate
      < (SimpleADSR.set_params env0 0 0 0 0).attack_rate ∧
    (SimpleADSR.set_params env0 0 1 0 0).decay_rate
      < (SimpleADSR.set_params env0 0 0 0 0).decay_rate ∧
    (SimpleADSR.set_params env0 0 0 0 1).release_rate
      < (SimpleADSR.set_params env0 0 0 0 0).release_rate) :=
  ⟨le_refl 0, by norm_num, le_refl 1,
    c8_time_to_rate_antitone env0 0 0 0 0 0 1 (le_refl 0) (by norm_num) (le_refl 1)⟩

theorem ffv_fold_min {F : Type} (voices : Fin 4 → BraidsVoice F) :
    ∀ (l : List (Fin 4)) (p : Fin 4 × ℤ), p.2 = (voices p.1).age →
      ((l.foldl (fun p i => if (voices i).age < p.2 then (i, (voices i).age) else p) p).2
          = (voices (l.foldl (fun p i => if (voices i).age < p.2 then (i, (voices i).age) else p) p).1).age ∧
        (l.foldl (fun p i => if (voices i).age < p.2 then (i, (voices i).age) else p) p).2 ≤ p.2 ∧
        ∀ i ∈ l, (l.foldl (fun p i => if (voices i).age < p.2 then (i, (voices i).age) else p) p).2
          ≤ (voices i).age) := by
  intro l
  induction l with
  | nil =>
      intro p hp
      exact ⟨hp, le_refl _, fun i hi => absurd hi (List.not_mem_nil i)⟩
  | cons i rest ih =>
      intro p hp
      simp only [List.foldl_cons]
      by_cases h : (voices i).age < p.2
      · rw [if_pos h]
        obtain ⟨hq1, hq2, hq3⟩ := ih (i, (voices i).age) rfl
        refine ⟨hq1, le_of_lt (lt_of_le_of_lt hq2 h), ?_⟩
        intro k hk
        rcases List.mem_cons.mp hk with rfl | hk'
        · exact hq2
        · exact hq3 k hk'
      · rw [if_neg h]
        obtain ⟨hq1, hq2, hq3⟩ := ih p hp
        refine ⟨hq1, hq2, ?_⟩
        intro k hk
        rcases List.mem_cons.mp hk with rfl | hk'
        · exact le_trans hq2 (le_of_not_lt h)
        · exact hq3 k hk'

/-- **C5.** `find_free_voice` always returns a valid voice index (it is total
at type `Fin 4`): when some voice is inactive it returns the first inactive
voice in index order, and when every voice is active it returns a voice whose
age is the global minimum (steal oldest). -/
theorem c5_find_free_voice_policy {F : Type} (voices : Fin 4 → BraidsVoice F) :
    ((∃ i, (voices i).active = false) →
      (voices (find_free_voice voices)).active = false ∧
        ∀ k, k < find_free_voice voices → (voices k).active = true) ∧
    ((∀ i, (voices i).active = true) →
      ∀ i, (voices (find_free_voice voices)).age ≤ (voices i).age) := by
  constructor
  · intro hex
    cases h0 : (voices 0).active
    · constructor
      · simpa [find_free_voice, List.find?, h0] using h0
      · intro k hk
        have : find_free_voice voices = 0 := by
          simp [find_free_voice, List.find?, h0]
        rw [this] at hk
        exact absurd hk (by fin_cases k <;> decide)
    · cases h1 : (voices 1).active
      · have hres : find_free_voice voices = 1 := by
          simp [find_free_voice, List.find?, h0, h1]
        rw [hres]
        refine ⟨h1, ?_⟩
        intro k hk
        fin_cases k <;> first | assumption | exact absurd hk (by decide)
      · cases h2 : (voices 2).active
        · have hres : find_free_voice voices = 2 := by
            simp [find_free_voice, List.find?, h0, h1, h2]
          rw [hres]
          refine ⟨h2, ?_⟩
          intro k hk
          fin_cases k <;> first | assumption | exact absurd hk (by decide)
        · cases h3 : (voices 3).active
          · have hres : find_free_voice voices = 3 := by
              simp [find_free_voice, List.find?, h0, h1, h2, h3]
            rw [hres]
            refine ⟨h3, ?_⟩
            intro k hk
            fin_cases k <;> first | assumption | exact absurd hk (by decide)
          · exfalso
            obtain ⟨i, hi⟩ := hex
            fin_cases i <;> simp_all
  · intro hall
    have hres : find_free_voice voices =
        (([1, 2, 3] : List (Fin 4)).foldl
          (fun p i => if (voices i).age < p.2 then (i, (voices i).age) else p)
          ((0 : Fin 4), (voices 0).age)).1 := by
      simp [find_free_voice, List.find?, hall 0, hall 1, hall 2, hall 3]
    obtain ⟨hq1, hq2, hq3⟩ := ffv_fold_min voices ([1, 2, 3] : List (Fin 4))
      ((0 : Fin 4), (voices 0).age) rfl
    intro i
    rw [hres, ← hq1]
    fin_cases i
    · exact hq2
    · exact hq3 1 (by decide)
    · exact hq3 2 (by decide)
    · exact hq3 3 (by decide)

/-- Witness for C5, applied twice: an array with voice 2 the first inactive
one, and an all-active array whose minimum age sits at voice 3. -/
theorem c5_find_free_voice_policy_witness :
    (∃ i, (c5w_voices_a i).active = false) ∧
    ((c5w_voices_a (find_free_voice c5w_voices_a)).active = false ∧
      ∀ k, k < find_free_voice c5w_voices_a → (c5w_voices_a k).active = true) ∧
    (∀ i, (c5w_voices_b i).active = true) ∧
    (∀ i, (c5w_voices_b (find_free_voice c5w_voices_b)).age ≤ (c5w_voices_b i).age) :=
  ⟨by decide, (c5_find_free_voice_policy c5w_voices_a).1 (by decide),
    by decide, (c5_find_free_voice_policy c5w_voices_b).2 (by decide)⟩

theorem fin4_mem_scan (j : Fin 4) : j ∈ ([0, 1, 2, 3] : List (Fin 4)) := by
  fin_cases j <;> decide

theorem fvfn_loop_no_match {F : Type} (voices : Fin 4 → BraidsVoice F)
    (note : ℤ) :
    ∀ (l : List (Fin 4)) (acc : Option (Fin 4)),
      (∀ i ∈ l, ¬((voices i).active = true ∧ (voices i).note = note)) →
      find_voice_for_note_loop voices note l acc = acc := by
  intro l
  induction l with
  | nil => intro acc _; rfl
  | cons i rest ih =>
      intro acc hl
      have hi := hl i (List.mem_cons_self i rest)
      simp only [find_voice_for_note_loop, if_neg hi]
      exact ih acc fun k hk => hl k (List.mem_cons_of_mem i hk)

theorem fvfn_loop_held {F : Type} (voices : Fin 4 → BraidsVoice F) (note : ℤ) :
    ∀ (l : List (Fin 4)), (∃ i ∈ l, heldMatch voices note i) →
      ∀ acc, ∃ j, find_voice_for_note_loop voices note l acc = some j ∧
        heldMatch voices note j := by
  intro l
  induction l with
  | nil => rintro ⟨i, hmem, _⟩; cases hmem
  | cons i rest ih =>
      rintro ⟨j, hmem, hj⟩ acc
      by_cases hcond : (voices i).active = true ∧ (voices i).note = note
      · by_cases hg : (voices i).gate = true
        · exact ⟨i, by simp [find_voice_for_note_loop, if_pos hcond, hg],
            ⟨hcond.1, hcond.2, hg⟩⟩
        · have hjr : j ∈ rest := by
            rcases List.mem_cons.mp hmem with rfl | h
            · exact absurd hj.2.2 hg
            · exact h
          have := ih ⟨j, hjr, hj⟩ (some i)
          simpa [find_voice_for_note_loop, if_pos hcond, hg] using this
      · have hjr : j ∈ rest := by
          rcases List.mem_cons.mp hmem with rfl | h
          · exact absurd ⟨hj.1, hj.2.1⟩ hcond
          · exact h
        have := ih ⟨j, hjr, hj⟩ acc
        simpa [find_voice_for_note_loop, if_neg hcond] using this

theorem fvfn_loop_releasing {F : Type} (voices : Fin 4 → BraidsVoice F)
    (note : ℤ) :
    ∀ (l : List (Fin 4)), l.Pairwise (· < ·) →
      (∀ i ∈ l, ¬ heldMatch voices note i) →
      (∃ i ∈ l, releasingMatch voices note i) →
      ∀ acc, ∃ j ∈ l, find_voice_for_note_loop voices note l acc = some j ∧
        releasingMatch voices note j ∧
        ∀ k ∈ l, releasingMatch voices note k → k ≤ j := by
  intro l
  induction l with
  | nil => intro _ _ h; rcases h with ⟨i, hmem, _⟩; cases hmem
  | cons i rest ih =>
      intro hpw hheld hex acc
      have hpw' := (List.pairwise_cons.mp hpw).2
      have hlt := (List.pairwise_cons.mp hpw).1
      have hheld' : ∀ k ∈ rest, ¬ heldMatch voices note k :=
        fun k hk => hheld k (List.mem_cons_of_mem i hk)
      by_cases hrel : releasingMatch voices note i
      · have hcond : (voices i).active = true ∧ (voices i).note = note :=
          ⟨hrel.1, hrel.2.1⟩
        have hg : ¬ (voices i).gate = true := by
          simp [hrel.2.2]
        by_cases hex' : ∃ k ∈ rest, releasingMatch voices note k
        · obtain ⟨j, hjmem, hj1, hj2, hj3⟩ := ih hpw' hheld' hex' (some i)
          refine ⟨j, List.mem_cons_of_mem i hjmem, ?_, hj2, ?_⟩
          · simpa [find_voice_for_note_loop, if_pos hcond, hg] using hj1
          · intro k hk hkrel
            rcases List.mem_cons.mp hk with rfl | hk'
            · exact le_of_lt (hlt j hjmem)
            · exact hj3 k hk' hkrel
        · have hnone : ∀ k ∈ rest,
              ¬((voices k).active = true ∧ (voices k).note = note) := by
            intro k hk hc
            rcases Bool.eq_false_or_eq_true (voices k).gate with hgt | hgf
            · exact hheld' k hk ⟨hc.1, hc.2, hgt⟩
            · exact hex' ⟨k, hk, hc.1, hc.2, hgf⟩
          refine ⟨i, List.mem_cons_self i rest, ?_, hrel, ?_⟩
          · simp only [find_voice_for_note_loop, if_pos hcond, if_neg hg]
            exact fvfn_loop_no_match voices note rest (some i) hnone
          · intro k hk hkrel
            rcases List.mem_cons.mp hk with rfl | hk'
            · exact le_refl k
            · exact absurd ⟨hkrel.1, hkrel.2.1⟩ (hnone k hk')
      · have hcond : ¬((voices i).active = true ∧ (voices i).note = note) := by
          intro hc
          rcases Bool.eq_false_or_eq_true (voices i).gate with hgt | hgf
          · exact hheld i (List.mem_cons_self i rest) ⟨hc.1, hc.2, hgt⟩
          · exact hrel ⟨hc.1, hc.2, hgf⟩
        have hex' : ∃ k ∈ rest, releasingMatch voices note k := by
          obtain ⟨j, hj1, hj2⟩ := hex
          rcases List.mem_cons.mp hj1 with rfl | hj'
          · exact absurd hj2 hrel
          · exact ⟨j, hj', hj2⟩
        obtain ⟨j, hjmem, hj1, hj2, hj3⟩ := ih hpw' hheld' hex' acc
        refine ⟨j, List.mem_cons_of_mem i hjmem, ?_, hj2, ?_⟩
        · simpa [find_voice_for_note_loop, if_neg hcond] using hj1
        · intro k hk hkrel
          rcases List.mem_cons.mp hk with rfl | hk'
          · exact absurd hkrel hrel
          · exact hj3 k hk' hkrel

/-- **C6.** `find_voice_for_note` returns a gated (held) match whenever one
exists; with only releasing matches it returns the one encountered last in
the index scan — the "most recent" in the spec's loop description, the
greatest matching index; with no active match at all it returns `-1`. -/
theorem c6_find_voice_for_note_policy {F : Type}
    (voices : Fin 4 → BraidsVoice F) (note : ℤ) :
    ((∃ i, heldMatch voices note i) →
      ∃ j : Fin 4, find_voice_for_note voices note = ((j : ℕ) : ℤ) ∧
        heldMatch voices note j) ∧
    ((∀ i, ¬ heldMatch voices note i) → (∃ i, releasingMatch voices note i) →
      ∃ j : Fin 4, find_voice_for_note voices note = ((j : ℕ) : ℤ) ∧
        releasingMatch voices note j ∧
        ∀ k, releasingMatch voices note k → k ≤ j) ∧
    ((∀ i, ¬((voices i).active = true ∧ (voices i).note = note)) →
      find_voice_for_note voices note = -1) := by
  refine ⟨?_, ?_, ?_⟩
  · rintro ⟨i, hi⟩
    obtain ⟨j, hj1, hj2⟩ := fvfn_loop_held voices note _ ⟨i, fin4_mem_scan i, hi⟩ none
    exact ⟨j, by simp [find_voice_for_note, hj1], hj2⟩
  · rintro hheld ⟨i, hi⟩
    obtain ⟨j, _, hj1, hj2, hj3⟩ := fvfn_loop_releasing voices note _
      (by decide) (fun k _ => hheld k) ⟨i, fin4_mem_scan i, hi⟩ none
    exact ⟨j, by simp [find_voice_for_note, hj1], hj2,
      fun k hk => hj3 k (fin4_mem_scan k) hk⟩
  · intro hnone
    have := fvfn_loop_no_match voices note ([0, 1, 2, 3] : List (Fin 4)) none
      (fun k _ => hnone k)
    simp [find_voice_for_note, this]

theorem is_active_false_iff (e : SimpleADSR) :
    e.is_active = false ↔ e.stage = Stage.IDLE := by
  simp [SimpleADSR.is_active]

theorem process_keeps_rates (e : SimpleADSR) :
    (e.process).1.attack_rate = e.attack_rate ∧
    (e.process).1.decay_rate = e.decay_rate ∧
    (e.process).1.sustain_level = e.sustain_level ∧
    (e.process).1.release_rate = e.release_rate := by
  rcases e with ⟨st, l, a, d, s, r⟩
  cases st <;> simp [SimpleADSR.process] <;> split_ifs <;> simp

theorem process_stage_release (e : SimpleADSR) (h : e.stage = Stage.RELEASE) :
    (e.process).1 =
      if e.level - e.release_rate ≤ 0
      then { e with level := 0, stage := Stage.IDLE }
      else { e with level := e.level - e.release_rate } := by
  rcases e with ⟨st, l, a, d, s, r⟩
  subst h
  simp [SimpleADSR.process]
  split_ifs <;> rfl

theorem process_stage_idle (e : SimpleADSR) (h : e.stage = Stage.IDLE) :
    (e.process).1.stage = Stage.IDLE := by
  rcases e with ⟨st, l, a, d, s, r⟩
  subst h
  simp [SimpleADSR.process]

theorem iter_shift (e : SimpleADSR) :
    ∀ k, SimpleADSR.iter ((e.process).1) k = SimpleADSR.iter e (k + 1) := by
  intro k
  induction k with
  | zero => rfl
  | succ k ih => show ((SimpleADSR.iter _ k).process).1 = _; rw [ih]; rfl

theorem iter_idle_absorb (e : SimpleADSR) (h : e.stage = Stage.IDLE) :
    ∀ k, (SimpleADSR.iter e k).stage = Stage.IDLE := by
  intro k
  induction k with
  | zero => exact h
  | succ k ih => exact process_stage_idle _ ih

theorem release_iter_bound (e : SimpleADSR) (hs : e.stage = Stage.RELEASE) :
    ∀ k : ℕ, (SimpleADSR.iter e k).stage = Stage.IDLE ∨
      ((SimpleADSR.iter e k).stage = Stage.RELEASE ∧
        (SimpleADSR.iter e k).level ≤ e.level - (k : ℚ) * e.release_rate ∧
        (SimpleADSR.iter e k).release_rate = e.release_rate) := by
  intro k
  induction k with
  | zero =>
      right
      refine ⟨hs, ?_, rfl⟩
      show e.level ≤ e.level - ((0 : ℕ) : ℚ) * e.release_rate
      norm_num
  | succ k ih =>
      rcases ih with hidle | ⟨h1, h2, h3⟩
      · left; exact process_stage_idle _ hidle
      · have hp := process_stage_release (SimpleADSR.iter e k) h1
        have hit : SimpleADSR.iter e (k + 1) = ((SimpleADSR.iter e k).process).1 := rfl
        rw [hit, hp]
        split_ifs with hc
        · left; rfl
        · right
          refine ⟨h1, ?_, h3⟩
          show (SimpleADSR.iter e k).level - (SimpleADSR.iter e k).release_rate ≤ _
          rw [h3]
          push_cast
          linarith

theorem release_reaches_idle (e : SimpleADSR) (hs : e.stage = Stage.RELEASE)
    (hr : 0 < e.release_rate) :
    ∃ N, ∀ k, N ≤ k → (SimpleADSR.iter e k).stage = Stage.IDLE := by
  set N0 := ⌈e.level / e.release_rate⌉₊ with hN0
  have hidleN : (SimpleADSR.iter e (N0 + 1)).stage = Stage.IDLE := by
    rcases release_iter_bound e hs N0 with hidle | ⟨h1, h2, h3⟩
    · exact process_stage_idle _ hidle
    · have hlev : (SimpleADSR.iter e N0).level ≤ 0 := by
        have hce : e.level / e.release_rate ≤ (N0 : ℚ) := Nat.le_ceil _
        have : e.level ≤ (N0 : ℚ) * e.release_rate := by
          rw [div_le_iff₀ hr] at hce
          linarith
        linarith
      have hp := process_stage_release (SimpleADSR.iter e N0) h1
      show ((SimpleADSR.iter e N0).process).1.stage = _
      rw [hp, if_pos (by rw [h3]; linarith)]
  refine ⟨N0 + 1, fun k hk => ?_⟩
  have : k = (N0 + 1) + (k - (N0 + 1)) := by omega
  rw [this]
  have hadd : ∀ a b, SimpleADSR.iter e (a + b)
      = SimpleADSR.iter (SimpleADSR.iter e a) b := by
    intro a b
    induction b with
    | zero => rfl
    | succ b ih => show (SimpleADSR.iter e (a + b)).process.1 = _; rw [ih]; rfl
  rw [hadd]
  exact iter_idle_absorb _ hidleN _

/-- Both output channels of a buffer lie in the signed 16-bit range. -/
def bufInRange (buf : Buf) : Prop :=
  ∀ m, (-32768 ≤ (buf m).1 ∧ (buf m).1 ≤ 32767) ∧
    (-32768 ≤ (buf m).2 ∧ (buf m).2 ≤ 32767)

theorem sample_mix_voice {F : Type} (ops : FilterOps F) (cfg : RenderCfg)
    (osc : ℕ → ℤ) (base : ℕ) (v1 : BraidsVoice F) (amp filt_val : ℚ)
    (buf : Buf) :
    (sample_mix ops cfg osc base v1 amp filt_val buf).1.active = v1.active ∧
    (sample_mix ops cfg osc base v1 amp filt_val buf).1.gate = v1.gate ∧
    (sample_mix ops cfg osc base v1 amp filt_val buf).1.amp_env = v1.amp_env ∧
    (sample_mix ops cfg osc base v1 amp filt_val buf).1.filt_env = v1.filt_env :=
  ⟨rfl, rfl, rfl, rfl⟩

theorem sample_mix_buf_ne {F : Type} (ops : FilterOps F) (cfg : RenderCfg)
    (osc : ℕ → ℤ) (base : ℕ) (v1 : BraidsVoice F) (amp filt_val : ℚ)
    (buf : Buf) (m : ℕ) (hm : m ≠ base) :
    (sample_mix ops cfg osc base v1 amp filt_val buf).2 m = buf m := by
  show (if m = base then _ else buf m) = buf m
  rw [if_neg hm]

theorem sample_mix_buf_base {F : Type} (ops : FilterOps F) (cfg : RenderCfg)
    (osc : ℕ → ℤ) (base : ℕ) (v1 : BraidsVoice F) (amp filt_val : ℚ)
    (buf : Buf) :
    ∃ x y, (sample_mix ops cfg osc base v1 amp filt_val buf).2 base
      = (clamp16 x, clamp16 y) := by
  refine ⟨(buf base).1 + (sample_value ops cfg osc base v1 amp filt_val).1,
    (buf base).2 + (sample_value ops cfg osc base v1 amp filt_val).1, ?_⟩
  simp [sample_mix]

theorem sample_mix_range {F : Type} (ops : FilterOps F) (cfg : RenderCfg)
    (osc : ℕ → ℤ) (base : ℕ) (v1 : BraidsVoice F) (amp filt_val : ℚ)
    (buf : Buf) (hb : bufInRange buf) :
    bufInRange (sample_mix ops cfg osc base v1 amp filt_val buf).2 := by
  intro m
  by_cases hm : m = base
  · subst hm
    obtain ⟨x, y, hxy⟩ := sample_mix_buf_base ops cfg osc m v1 amp filt_val buf
    rw [hxy]
    exact ⟨⟨(clamp16_le x).1, (clamp16_le x).2⟩, (clamp16_le y).1, (clamp16_le y).2⟩
  · rw [sample_mix_buf_ne ops cfg osc base v1 amp filt_val buf m hm]
    exact hb m

theorem render_samples_zero {F : Type} (ops : FilterOps F) (cfg : RenderCfg)
    (osc : ℕ → ℤ) (base : ℕ) (v : BraidsVoice F) (buf : Buf) :
    render_samples ops cfg osc base 0 v buf = (v, buf) := rfl

theorem render_samples_dead {F : Type} (ops : FilterOps F) (cfg : RenderCfg)
    (osc : ℕ → ℤ) (base : ℕ) (v : BraidsVoice F) (buf : Buf) (c : ℕ)
    (hg : v.gate = false) (hi : ((v.amp_env.process).1).is_active = false) :
    render_samples ops cfg osc base (c + 1) v buf =
      ({ v with
          amp_env := (v.amp_env.process).1
          filt_env := (v.filt_env.process).1
          active := false }, buf) := by
  simp only [render_samples]
  rw [if_pos ⟨hg, hi⟩]

theorem render_samples_alive {F : Type} (ops : FilterOps F) (cfg : RenderCfg)
    (osc : ℕ → ℤ) (base : ℕ) (v : BraidsVoice F) (buf : Buf) (c : ℕ)
    (h : ¬(v.gate = false ∧ ((v.amp_env.process).1).is_active = false)) :
    render_samples ops cfg osc base (c + 1) v buf =
      render_samples ops cfg osc (base + 1) c
        (sample_mix ops cfg osc base
          { v with amp_env := (v.amp_env.process).1, filt_env := (v.filt_env.process).1 }
          (v.amp_env.process).2 (v.filt_env.process).2 buf).1
        (sample_mix ops cfg osc base
          { v with amp_env := (v.amp_env.process).1, filt_env := (v.filt_env.process).1 }
          (v.amp_env.process).2 (v.filt_env.process).2 buf).2 := by
  simp only [render_samples]
  rw [if_neg h]

theorem render_samples_append {F : Type} (ops : FilterOps F) (cfg : RenderCfg)
    (osc : ℕ → ℤ) :
    ∀ (a b base : ℕ) (v : BraidsVoice F) (buf : Buf), v.active = true →
      render_samples ops cfg osc base (a + b) v buf =
        (if (render_samples ops cfg osc base a v buf).1.active = true
         then render_samples ops cfg osc (base + a) b
                (render_samples ops cfg osc base a v buf).1
                (render_samples ops cfg osc base a v buf).2
         else render_samples ops cfg osc base a v buf) := by
  intro a
  induction a with
  | zero =>
      intro b base v buf hv
      rw [Nat.zero_add, render_samples_zero, if_pos hv, Nat.add_zero]
  | succ a ih =>
      intro b base v buf hv
      rw [Nat.succ_add]
      by_cases hd : v.gate = false ∧ ((v.amp_env.process).1).is_active = false
      · rw [render_samples_dead ops cfg osc base v buf (a + b) hd.1 hd.2,
          render_samples_dead ops cfg osc base v buf a hd.1 hd.2]
        rw [if_neg (by simp)]
      · rw [render_samples_alive ops cfg osc base v buf (a + b) hd,
          render_samples_alive ops cfg osc base v buf a hd]
        have hv1 : (sample_mix ops cfg osc base
            { v with amp_env := (v.amp_env.process).1, filt_env := (v.filt_env.process).1 }
            (v.amp_env.process).2 (v.filt_env.process).2 buf).1.active = true := hv
        rw [ih b (base + 1) _ _ hv1]
        rw [show base + (a + 1) = (base + 1) + a from by omega]

theorem render_samples_range {F : Type} (ops : FilterOps F) (cfg : RenderCfg)
    (osc : ℕ → ℤ) :
    ∀ (count base : ℕ) (v : BraidsVoice F) (buf : Buf), bufInRange buf →
      bufInRange (render_samples ops cfg osc base count v buf).2 := by
  intro count
  induction count with
  | zero => intro base v buf hb; exact hb
  | succ c ih =>
      intro base v buf hb
      by_cases hd : v.gate = false ∧ ((v.amp_env.process).1).is_active = false
      · rw [render_samples_dead ops cfg osc base v buf c hd.1 hd.2]
        exact hb
      · rw [render_samples_alive ops cfg osc base v buf c hd]
        exact ih _ _ _ (sample_mix_range _ _ _ _ _ _ _ _ hb)

theorem env_dies_at_shift (e : SimpleADSR) (n : ℕ)
    (h : env_dies_at e (n + 1)) : env_dies_at ((e.process).1) n := by
  constructor
  · rw [iter_shift]
    exact h.1
  · intro m hm
    rw [iter_shift]
    exact h.2 (m + 1) (by simp only [List.mem_range] at hm ⊢; omega)

theorem render_samples_dies {F : Type} (ops : FilterOps F) (cfg : RenderCfg)
    (osc : ℕ → ℤ) :
    ∀ (n count base : ℕ) (v : BraidsVoice F) (buf : Buf),
      v.active = true → v.gate = false → env_dies_at v.amp_env n → n < count →
      ((render_samples ops cfg osc base count v buf).1.active = false ∧
        ∀ m, base + n ≤ m →
          (render_samples ops cfg osc base count v buf).2 m = buf m) := by
  intro n
  induction n with
  | zero =>
      intro count base v buf hact hgate hdies hn
      cases count with
      | zero => omega
      | succ c =>
          have hi : ((v.amp_env.process).1).is_active = false := hdies.1
          rw [render_samples_dead ops cfg osc base v buf c hgate hi]
          exact ⟨rfl, fun m _ => rfl⟩
  | succ n ih =>
      intro count base v buf hact hgate hdies hn
      cases count with
      | zero => omega
      | succ c =>
          have halive : ((v.amp_env.process).1).is_active = true :=
            hdies.2 0 (by simp)
          have hd : ¬(v.gate = false ∧ ((v.amp_env.process).1).is_active = false) := by
            intro hc
            rw [halive] at hc
            exact Bool.noConfusion hc.2
          rw [render_samples_alive ops cfg osc base v buf c hd]
          have hv1 : (sample_mix ops cfg osc base
              { v with amp_env := (v.amp_env.process).1, filt_env := (v.filt_env.process).1 }
              (v.amp_env.process).2 (v.filt_env.process).2 buf).1.active = true := hact
          have hg1 : (sample_mix ops cfg osc base
              { v with amp_env := (v.amp_env.process).1, filt_env := (v.filt_env.process).1 }
              (v.amp_env.process).2 (v.filt_env.process).2 buf).1.gate = false := hgate
          have hd1 : env_dies_at ((sample_mix ops cfg osc base
              { v with amp_env := (v.amp_env.process).1, filt_env := (v.filt_env.process).1 }
              (v.amp_env.process).2 (v.filt_env.process).2 buf).1.amp_env) n :=
            env_dies_at_shift v.amp_env n hdies
          obtain ⟨ha, hb⟩ := ih c (base + 1) _ _ hv1 hg1 hd1 (by omega)
          refine ⟨ha, ?_⟩
          intro m hm
          rw [hb m (by omega)]
          exact sample_mix_buf_ne ops cfg osc base _ _ _ buf m (by omega)

theorem render_blocks_flatten {F : Type} (ops : FilterOps F) (cfg : RenderCfg)
    (osc : ℕ → ℤ) :
    ∀ (remaining base : ℕ) (v : BraidsVoice F) (buf : Buf), v.active = true →
      render_blocks ops cfg osc remaining base v buf =
        render_samples ops cfg osc base remaining v buf := by
  intro remaining
  induction remaining using Nat.strong_induction_on with
  | _ remaining ih =>
      intro base v buf hv
      rw [render_blocks]
      by_cases h0 : remaining = 0
      · subst h0
        rw [dif_pos rfl, render_samples_zero]
      · rw [dif_neg h0]
        have hbs1 : 1 ≤ min BRAIDS_BLOCK_SIZE remaining := by
          have : 0 < remaining := Nat.pos_of_ne_zero h0
          simp [BRAIDS_BLOCK_SIZE]
          omega
        have hbs2 : min BRAIDS_BLOCK_SIZE remaining ≤ remaining := Nat.min_le_right _ _
        have hsp : remaining
            = min BRAIDS_BLOCK_SIZE remaining
              + (remaining - min BRAIDS_BLOCK_SIZE remaining) := by omega
        conv_rhs => rw [hsp]
        rw [render_samples_append ops cfg osc _ _ base v buf hv]
        by_cases hact : (render_samples ops cfg osc base
            (min BRAIDS_BLOCK_SIZE remaining) v buf).1.active = true
        · rw [if_pos hact, if_pos hact]
          exact ih _ (by omega) _ _ _ hact
        · rw [if_neg hact, if_neg hact]

theorem render_voice_alive {F : Type} (ops : FilterOps F)
    (params : BraidsParam → ℚ) (osc : ℕ → ℤ) (frames : ℕ)
    (v : BraidsVoice F) (buf : Buf) (hv : v.active = true) :
    render_voice ops params osc frames v buf =
      render_samples ops (mkRenderCfg params) osc 0 frames
        (apply_params_to_voice ops params v) buf := by
  unfold render_voice
  rw [if_neg (by simp [hv])]
  exact render_blocks_flatten ops (mkRenderCfg params) osc frames 0
    (apply_params_to_voice ops params v) buf hv

theorem updVoices_same {F : Type} (vs : Fin 4 → BraidsVoice F) (i : Fin 4)
    (v : BraidsVoice F) : updVoices vs i v i = v := by
  simp [updVoices]

theorem updVoices_ne {F : Type} (vs : Fin 4 → BraidsVoice F) (i k : Fin 4)
    (v : BraidsVoice F) (h : k ≠ i) : updVoices vs i v k = vs k := by
  simp [updVoices, h]

theorem land_144 (ch : ℕ) (hch : ch < 16) : Nat.land (144 + ch) 240 = 144 := by
  interval_cases ch <;> rfl

theorem land_128 (ch : ℕ) (hch : ch < 16) : Nat.land (128 + ch) 240 = 128 := by
  interval_cases ch <;> rfl

theorem g_shadow_params_min_le_max :
    ∀ d ∈ g_shadow_params, d.min_val ≤ d.max_val := by
  intro d hd
  fin_cases hd <;> norm_num [NUM_SHAPES, g_shape_names]

theorem find_key_of_mem (d : param_def_t) (hd : d ∈ g_shadow_params) :
    g_shadow_params.find? (fun e => e.key == d.key) = some d := by
  fin_cases hd <;> rfl

theorem on_midi_noteon_vel0_red {F : Type} (ops : FilterOps F)
    (inst : braids_instance_t F) (ch n : ℕ) (hch : ch < 16) :
    v2_on_midi ops inst [144 + ch, n, 0] =
      (match find_voice_for_note_loop inst.voices
          (midi_note_transform inst.octave_transpose n)
          ([0, 1, 2, 3] : List (Fin 4)) none with
       | some vi =>
           { inst with voices := updVoices inst.voices vi (gate_off_voice (inst.voices vi)) }
       | none => inst) := by
  simp only [v2_on_midi, List.length_cons, List.length_nil, List.getD_cons_zero,
    List.getD_cons_succ, land_144 ch hch]
  norm_num [gate_off_voice]

theorem on_midi_noteoff_red {F : Type} (ops : FilterOps F)
    (inst : braids_instance_t F) (ch n voff : ℕ) (hch : ch < 16) :
    v2_on_midi ops inst [128 + ch, n, voff] =
      (match find_voice_for_note_loop inst.voices
          (midi_note_transform inst.octave_transpose n)
          ([0, 1, 2, 3] : List (Fin 4)) none with
       | some vi =>
           { inst with voices := updVoices inst.voices vi (gate_off_voice (inst.voices vi)) }
       | none => inst) := by
  simp only [v2_on_midi, List.length_cons, List.length_nil, List.getD_cons_zero,
    List.getD_cons_succ, land_128 ch hch]
  norm_num [gate_off_voice]

/-- **C2.** For a voice rendered by `v2_render_block` (per-voice body
`render_voice`) with `active` set and `gate` cleared: at the first per-sample
step at which its (re-parameterised) amplitude envelope goes idle, the voice
is deactivated and contributes nothing to the output for that sample or any
remaining frame of the callback (the buffer is untouched from that flat frame
index on); consequently a voice left in release is deactivated by any render
of enough frames, and a deactivated voice is skipped entirely by later
renders, contributing nothing. -/
theorem c2_release_deactivates_voice {F : Type} (ops : FilterOps F)
    (params : BraidsParam → ℚ) (osc : ℕ → ℤ) (frames n : ℕ)
    (v : BraidsVoice F) (buf : Buf)
    (hact : v.active = true) (hgate : v.gate = false)
    (hrel : v.amp_env.stage = Stage.RELEASE)
    (hdies : env_dies_at (apply_params_to_voice ops params v).amp_env n)
    (hn : n < frames) :
    ((render_voice ops params osc frames v buf).1.active = false ∧
      ∀ m, n ≤ m → (render_voice ops params osc frames v buf).2 m = buf m) ∧
    (∃ N, ∀ fr, N ≤ fr → ∀ buf2 : Buf,
      (render_voice ops params osc fr v buf2).1.active = false) ∧
    (∀ (w : BraidsVoice F) (buf2 : Buf), w.active = false →
      render_voice ops params osc frames w buf2 = (w, buf2)) := by
  have happ_act : (apply_params_to_voice ops params v).active = true := hact
  have happ_gate : (apply_params_to_voice ops params v).gate = false := hgate
  refine ⟨?_, ?_, ?_⟩
  · rw [render_voice_alive ops params osc frames v buf hact]
    obtain ⟨h1, h2⟩ := render_samples_dies ops (mkRenderCfg params) osc n frames 0
      (apply_params_to_voice ops params v) buf happ_act happ_gate hdies hn
    exact ⟨h1, fun m hm => h2 m (by omega)⟩
  · have hstage : (apply_params_to_voice ops params v).amp_env.stage
        = Stage.RELEASE := hrel
    have hrate : 0 < (apply_params_to_voice ops params v).amp_env.release_rate := by
      show 0 < time_to_rate (params PARAM_RELEASE)
      exact time_to_rate_pos _
    obtain ⟨N0, hN0⟩ := release_reaches_idle _ hstage hrate
    have hPex : ∃ k, ((apply_params_to_voice ops params v).amp_env.iter
        (k + 1)).is_active = false := by
      refine ⟨N0, ?_⟩
      rw [is_active_false_iff]
      exact hN0 (N0 + 1) (by omega)
    have hdies0 : env_dies_at (apply_params_to_voice ops params v).amp_env
        (Nat.find hPex) := by
      refine ⟨Nat.find_spec hPex, ?_⟩
      intro m hm
      have hlt := List.mem_range.mp hm
      have := Nat.find_min hPex hlt
      simpa using this
    refine ⟨Nat.find hPex + 1, fun fr hfr buf2 => ?_⟩
    rw [render_voice_alive ops params osc fr v buf2 hact]
    exact (render_samples_dies ops (mkRenderCfg params) osc (Nat.find hPex) fr 0
      (apply_params_to_voice ops params v) buf2 happ_act happ_gate hdies0
      (by omega)).1
  · intro w buf2 hw
    unfold render_voice
    rw [if_pos hw]

/-- Witness for C2: a voice in release with level `1/100` dies on the first
envelope step (the derived release rate at parameter 0 is `10/441`), so one
rendered frame deactivates it. -/
theorem c2_release_deactivates_voice_witness :
    c2w_voice.active = true ∧ c2w_voice.gate = false ∧
    c2w_voice.amp_env.stage = Stage.RELEASE ∧
    env_dies_at (apply_params_to_voice unitOps c2w_params c2w_voice).amp_env 0 ∧
    0 < 1 ∧
    (((render_voice unitOps c2w_params c2w_osc 1 c2w_voice zeroBuf).1.active = false ∧
        ∀ m, 0 ≤ m →
          (render_voice unitOps c2w_params c2w_osc 1 c2w_voice zeroBuf).2 m
            = zeroBuf m) ∧
      (∃ N, ∀ fr, N ≤ fr → ∀ buf2 : Buf,
        (render_voice unitOps c2w_params c2w_osc fr c2w_voice buf2).1.active = false) ∧
      (∀ (w : BraidsVoice Unit) (buf2 : Buf), w.active = false →
        render_voice unitOps c2w_params c2w_osc 1 w buf2 = (w, buf2))) := by
  have hdies : env_dies_at
      (apply_params_to_voice unitOps c2w_params c2w_voice).amp_env 0 := by
    constructor
    · norm_num [apply_params_to_voice, SimpleADSR.set_params, SimpleADSR.iter,
        SimpleADSR.process, time_to_rate, SimpleADSR.is_active, c2w_voice,
        c2w_params, voice0, env0]
    · intro m hm
      simp at hm
  exact ⟨by decide, by decide, by decide, hdies, by decide,
    c2_release_deactivates_voice unitOps c2w_params c2w_osc 1 0 c2w_voice zeroBuf
      (by decide) (by decide) (by decide) hdies (by decide)⟩

theorem render_voice_range {F : Type} (ops : FilterOps F)
    (params : BraidsParam → ℚ) (osc : ℕ → ℤ) (frames : ℕ) :
    ∀ (v : BraidsVoice F) (buf : Buf), bufInRange buf →
      bufInRange (render_voice ops params osc frames v buf).2 := by
  intro v buf hb
  by_cases hv : v.active = false
  · unfold render_voice
    rw [if_pos hv]
    exact hb
  · have hv' : v.active = true := by
      cases hva : v.active
      · exact absurd hva hv
      · rfl
    rw [render_voice_alive ops params osc frames v buf hv']
    exact render_samples_range ops (mkRenderCfg params) osc frames 0 _ _ hb

theorem foldl_buf_range {F : Type}
    (step : ((Fin 4 → BraidsVoice F) × Buf) → Fin 4 → ((Fin 4 → BraidsVoice F) × Buf))
    (hstep : ∀ acc vi, bufInRange acc.2 → bufInRange (step acc vi).2) :
    ∀ (l : List (Fin 4)) (acc : (Fin 4 → BraidsVoice F) × Buf),
      bufInRange acc.2 → bufInRange ((l.foldl step acc).2) := by
  intro l
  induction l with
  | nil => intro acc h; exact h
  | cons i rest ih => intro acc h; exact ih _ (hstep acc i h)

/-- **C4.** Every sample `v2_render_block` leaves in the interleaved stereo
output is saturated to the signed 16-bit range `[-32768, 32767]`,
independently per channel, for every frame: the buffer starts zeroed and
every per-voice accumulation stores `clamp16` of the running sum (the
arithmetic itself is carried out on unbounded integers in this model,
matching the source's 32-bit-or-wider intermediates), so no stored sample
ever wraps. -/
theorem c4_output_saturated {F : Type} (ops : FilterOps F)
    (inst : braids_instance_t F) (osc : Fin 4 → ℕ → ℤ) (frames : ℕ) :
    ∀ m, (-32768 ≤ ((v2_render_block ops inst osc frames).2 m).1 ∧
        ((v2_render_block ops inst osc frames).2 m).1 ≤ 32767) ∧
      (-32768 ≤ ((v2_render_block ops inst osc frames).2 m).2 ∧
        ((v2_render_block ops inst osc frames).2 m).2 ≤ 32767) := by
  have hzero : bufInRange (fun _ => ((0 : ℤ), (0 : ℤ))) := by
    intro m
    refine ⟨⟨by norm_num, by norm_num⟩, by norm_num, by norm_num⟩
  have h := foldl_buf_range
    (fun (acc : (Fin 4 → BraidsVoice F) × Buf) (vi : Fin 4) =>
      ((updVoices acc.1 vi
          (render_voice ops inst.params (osc vi) frames (acc.1 vi) acc.2).1),
        (render_voice ops inst.params (osc vi) frames (acc.1 vi) acc.2).2))
    (fun acc vi hb => render_voice_range ops inst.params (osc vi) frames _ _ hb)
    ([0, 1, 2, 3] : List (Fin 4)) (inst.voices, fun _ => ((0 : ℤ), (0 : ℤ))) hzero
  have h2 : bufInRange (v2_render_block ops inst osc frames).2 := h
  exact h2

/-- **C10.** A Note On status byte (0x90, any channel) with velocity 0 is
handled exactly like a Note Off (0x80, any trailing velocity): the two
messages yield identical instance states; no voice is allocated, stolen or
re-triggered — when the octave-transposed, clamped note matches some active
voice the matched voice only has its gate cleared and both envelopes sent to
release while every other voice, the parameter table, the octave transpose
and the voice counter stay untouched; when no voice matches, nothing at all
happens. -/
theorem c10_noteon_vel0_is_noteoff {F : Type} (ops : FilterOps F)
    (inst : braids_instance_t F) (ch n voff : ℕ) (hch : ch < 16) :
    v2_on_midi ops inst [144 + ch, n, 0] = v2_on_midi ops inst [128 + ch, n, voff] ∧
    (find_voice_for_note inst.voices (midi_note_transform inst.octave_transpose n)
        = -1 →
      v2_on_midi ops inst [144 + ch, n, 0] = inst) ∧
    (∀ j : Fin 4,
      find_voice_for_note inst.voices (midi_note_transform inst.octave_transpose n)
          = ((j : ℕ) : ℤ) →
      (v2_on_midi ops inst [144 + ch, n, 0]).voices j
          = gate_off_voice (inst.voices j) ∧
        (∀ k, k ≠ j →
          (v2_on_midi ops inst [144 + ch, n, 0]).voices k = inst.voices k) ∧
        (v2_on_midi ops inst [144 + ch, n, 0]).params = inst.params ∧
        (v2_on_midi ops inst [144 + ch, n, 0]).octave_transpose
          = inst.octave_transpose ∧
        (v2_on_midi ops inst [144 + ch, n, 0]).voice_counter
          = inst.voice_counter) := by
  refine ⟨?_, ?_, ?_⟩
  · rw [on_midi_noteon_vel0_red ops inst ch n hch,
      on_midi_noteoff_red ops inst ch n voff hch]
  · intro h
    rw [on_midi_noteon_vel0_red ops inst ch n hch]
    cases hl : find_voice_for_note_loop inst.voices
        (midi_note_transform inst.octave_transpose n)
        ([0, 1, 2, 3] : List (Fin 4)) none with
    | none => rfl
    | some j =>
        exfalso
        unfold find_voice_for_note at h
        rw [hl] at h
        have h' : ((j : ℕ) : ℤ) = -1 := h
        omega
  · intro j h
    have hl : find_voice_for_note_loop inst.voices
        (midi_note_transform inst.octave_transpose n)
        ([0, 1, 2, 3] : List (Fin 4)) none = some j := by
      unfold find_voice_for_note at h
      cases hl2 : find_voice_for_note_loop inst.voices
          (midi_note_transform inst.octave_transpose n)
          ([0, 1, 2, 3] : List (Fin 4)) none with
      | none =>
          have h' : (-1 : ℤ) = ((j : ℕ) : ℤ) := by rw [hl2] at h; exact h
          omega
      | some j' =>
          rw [hl2] at h
          have h' : ((j' : ℕ) : ℤ) = ((j : ℕ) : ℤ) := h
          have : j' = j := Fin.ext (by exact_mod_cast h')
          rw [this]
    rw [on_midi_noteon_vel0_red ops inst ch n hch, hl]
    exact ⟨updVoices_same _ _ _, fun k hk => updVoices_ne _ _ _ _ hk, rfl, rfl, rfl⟩

/-- Witness for C10 on a concrete instance with note 60 held on voice 2,
channel 0, note-off velocity 64. -/
theorem c10_noteon_vel0_is_noteoff_witness :
    (0 : ℕ) < 16 ∧
    (v2_on_midi unitOps c10w_inst [144 + 0, 60, 0]
        = v2_on_midi unitOps c10w_inst [128 + 0, 60, 64] ∧
      (find_voice_for_note c10w_inst.voices
          (midi_note_transform c10w_inst.octave_transpose 60) = -1 →
        v2_on_midi unitOps c10w_inst [144 + 0, 60, 0] = c10w_inst) ∧
      (∀ j : Fin 4,
        find_voice_for_note c10w_inst.voices
            (midi_note_transform c10w_inst.octave_transpose 60) = ((j : ℕ) : ℤ) →
        (v2_on_midi unitOps c10w_inst [144 + 0, 60, 0]).voices j
            = gate_off_voice (c10w_inst.voices j) ∧
          (∀ k, k ≠ j →
            (v2_on_midi unitOps c10w_inst [144 + 0, 60, 0]).voices k
              = c10w_inst.voices k) ∧
          (v2_on_midi unitOps c10w_inst [144 + 0, 60, 0]).params = c10w_inst.params ∧
          (v2_on_midi unitOps c10w_inst [144 + 0, 60, 0]).octave_transpose
            = c10w_inst.octave_transpose ∧
          (v2_on_midi unitOps c10w_inst [144 + 0, 60, 0]).voice_counter
            = c10w_inst.voice_counter)) :=
  ⟨by decide, c10_noteon_vel0_is_noteoff unitOps c10w_inst 0 60 64 (by decide)⟩

/-- **C1 counterexample.** The claimed invariant fails on a reachable state:
loading a preset file whose `timbre` field is 5 (`load_braids_preset` stores
numeric preset fields without clamping) and applying it puts 5 into the
parameter table although `timbre`'s declared range is `[0, 1]`. -/
theorem c1_param_range_counterexample :
    (v2_apply_preset (load_braids_preset inst0 pf_timbre5) 0).params PARAM_TIMBRE = 5 ∧
    (∃ d ∈ g_shadow_params, d.index = PARAM_TIMBRE ∧ d.min_val = 0 ∧ d.max_val = 1) ∧
    ¬ ((5 : ℚ) ≤ 1) := by
  refine ⟨rfl, ⟨⟨"timbre", "Timbre", PARAM_TYPE_FLOAT, PARAM_TIMBRE, 0, 1⟩,
    List.mem_cons_of_mem _ (List.mem_cons_self _ _), rfl, rfl, rfl⟩, by norm_num⟩

/-- **C1 (amended).** Values stored through `v2_set_param`'s named-parameter
branch are always clamped into the declared inclusive `[min, max]` range of
the addressed table entry, for every table key and every input value; the
blanket reachable-state invariant fails because `load_braids_preset` stores
preset field values unclamped (see the counterexample). -/
theorem c1_set_param_named_clamps {F : Type} (inst : braids_instance_t F)
    (d : param_def_t) (fval : ℚ) (hd : d ∈ g_shadow_params) :
    d.min_val ≤ (v2_set_param_named inst d.key fval).params d.index ∧
      (v2_set_param_named inst d.key fval).params d.index ≤ d.max_val := by
  unfold v2_set_param_named
  rw [find_key_of_mem d hd]
  show d.min_val ≤ updParam inst.params d.index (clampEntry d fval) d.index ∧
    updParam inst.params d.index (clampEntry d fval) d.index ≤ d.max_val
  rw [updParam_same]
  exact clampEntry_bounds d (g_shadow_params_min_le_max d hd) fval

/-- Witness for C1's amended theorem: storing 5 through the `timbre` key of
the default instance yields a value within `[0, 1]`. -/
theorem c1_set_param_named_clamps_witness :
    ((⟨"timbre", "Timbre", PARAM_TYPE_FLOAT, PARAM_TIMBRE, 0, 1⟩ : param_def_t)
        ∈ g_shadow_params) ∧
    ((0 : ℚ) ≤ (v2_set_param_named inst0 "timbre" 5).params PARAM_TIMBRE ∧
      (v2_set_param_named inst0 "timbre" 5).params PARAM_TIMBRE ≤ 1) :=
  ⟨List.mem_cons_of_mem _ (List.mem_cons_self _ _),
    c1_set_param_named_clamps inst0
      ⟨"timbre", "Timbre", PARAM_TYPE_FLOAT, PARAM_TIMBRE, 0, 1⟩ 5
      (List.mem_cons_of_mem _ (List.mem_cons_self _ _))⟩

/-- Witness for C6, applied twice: with a held match present (array a) a held
voice is returned; with only releasing matches (array b) the last-scanned
match is returned. -/
theorem c6_find_voice_for_note_policy_witness :
    (∃ i, heldMatch c6w_voices_a 60 i) ∧
    (∃ j : Fin 4, find_voice_for_note c6w_voices_a 60 = ((j : ℕ) : ℤ) ∧
      heldMatch c6w_voices_a 60 j) ∧
    (∀ i, ¬ heldMatch c6w_voices_b 60 i) ∧
    (∃ i, releasingMatch c6w_voices_b 60 i) ∧
    (∃ j : Fin 4, find_voice_for_note c6w_voices_b 60 = ((j : ℕ) : ℤ) ∧
      releasingMatch c6w_voices_b 60 j ∧
      ∀ k, releasingMatch c6w_voices_b 60 k → k ≤ j) :=
  ⟨by decide, (c6_find_voice_for_note_policy c6w_voices_a 60).1 (by decide),
    by decide, by decide,
    (c6_find_voice_for_note_policy c6w_voices_b 60).2.1 (by decide) (by decide)⟩

theorem restore_fold_ne (g : String → Option ℚ) (p : BraidsParam) :
    ∀ (L : List param_def_t), (∀ d ∈ L, d.index ≠ p) →
      ∀ ps, (L.foldl (restore_param_step g) ps) p = ps p := by
  intro L
  induction L with
  | nil => intro _ ps; rfl
  | cons d rest ih =>
      intro hL ps
      simp only [List.foldl_cons]
      rw [ih (fun e he => hL e (List.mem_cons_of_mem d he))]
      unfold restore_param_step
      cases g d.key with
      | none => rfl
      | some v =>
          simp only [updParam]
          rw [if_neg]
          intro hpe
          exact hL d (List.mem_cons_self d rest) hpe.symm

theorem restore_fold_write (g : String → Option ℚ) (L1 : List param_def_t)
    (d : param_def_t) (L2 : List param_def_t) (v : ℚ) (hg : g d.key = some v)
    (hL2 : ∀ e ∈ L2, e.index ≠ d.index) (ps : BraidsParam → ℚ) :
    ((L1 ++ d :: L2).foldl (restore_param_step g) ps) d.index = clampEntry d v := by
  rw [List.foldl_append]
  simp only [List.foldl_cons]
  rw [restore_fold_ne g d.index L2 hL2]
  unfold restore_param_step
  rw [hg]
  exact updParam_same _ _ _

theorem g_shadow_params_index_nodup :
    (g_shadow_params.map param_def_t.index).Nodup := by
  decide

theorem g_shadow_params_index_surj :
    ∀ p : BraidsParam, ∃ d ∈ g_shadow_params, d.index = p := by
  decide

theorem round4_int_div_10000 (k : ℤ) : round4 ((k : ℚ) / 10000) = (k : ℚ) / 10000 := by
  unfold round4
  have h1 : (k : ℚ) / 10000 * 10000 = (k : ℚ) := by
    field_simp
  rw [h1]
  have h2 : ⌊(k : ℚ) + 1 / 2⌋ = k := by
    rw [add_comm, Int.floor_add_int]
    norm_num
  rw [h2]

/-- The serialized blob always answers a table key with the formatted value
of that entry. -/
theorem get_state_params_eval {F : Type} (inst : braids_instance_t F)
    (d : param_def_t) (hd : d ∈ g_shadow_params) :
    (v2_get_param_state inst).params d.key =
      some (if d.ptype = PARAM_TYPE_INT
            then ((ratTruncZ (inst.params d.index) : ℤ) : ℚ)
            else round4 (inst.params d.index)) := by
  show (match g_shadow_params.find? (fun e => e.key == d.key) with
    | some e =>
        some (if e.ptype = PARAM_TYPE_INT
              then ((ratTruncZ (inst.params e.index) : ℤ) : ℚ)
              else round4 (inst.params e.index))
    | none => none) = _
  rw [find_key_of_mem d hd]

/-- **C7 counterexample.** Round-tripping through the `state` key is not the
identity on every reachable state, in two ways.  First, after
`set_param("timbre", "0.33333")` the `%.4f` serialization stores `0.3333`,
so the restored timbre differs from the original.  Second, after loading and
applying a preset file with `"timbre": 5` (stored unclamped, value on the
four-decimal grid), the restore loop of `v2_set_param` clamps the value to
the declared maximum 1, so the restored timbre again differs from the
original. -/
theorem c7_state_roundtrip_counterexample :
    (c7_inst.params PARAM_TIMBRE = 33333 / 100000 ∧
      (v2_set_param_state c7_inst (v2_get_param_state c7_inst)).params PARAM_TIMBRE
        = 3333 / 10000 ∧
      (3333 / 10000 : ℚ) ≠ 33333 / 100000) ∧
    (c7_inst_b.params PARAM_TIMBRE = 5 ∧
      (v2_set_param_state c7_inst_b (v2_get_param_state c7_inst_b)).params PARAM_TIMBRE
        = 1 ∧
      (1 : ℚ) ≠ 5) := by
  have hd : (⟨"timbre", "Timbre", PARAM_TYPE_FLOAT, PARAM_TIMBRE, 0, 1⟩ : param_def_t)
      ∈ g_shadow_params := List.mem_cons_of_mem _ (List.mem_cons_self _ _)
  have hsplit :
      g_shadow_params =
        [⟨"engine", "Engine", PARAM_TYPE_INT, PARAM_ENGINE, 0, ((NUM_SHAPES : ℚ) - 1)⟩]
          ++ (⟨"timbre", "Timbre", PARAM_TYPE_FLOAT, PARAM_TIMBRE, 0, 1⟩ : param_def_t)
          :: g_shadow_params.drop 2 := rfl
  constructor
  · have h1 : c7_inst.params PARAM_TIMBRE = 33333 / 100000 := by
      show (updParam inst0.params PARAM_TIMBRE
        (clampEntry ⟨"timbre", "Timbre", PARAM_TYPE_FLOAT, PARAM_TIMBRE, 0, 1⟩
          (33333 / 100000))) PARAM_TIMBRE = 33333 / 100000
      rw [updParam_same]
      apply clampEntry_of_bounds
      · show (0 : ℚ) ≤ 33333 / 100000
        norm_num
      · show (33333 : ℚ) / 100000 ≤ 1
        norm_num
    refine ⟨h1, ?_, by norm_num⟩
    have hg : (v2_get_param_state c7_inst).params "timbre" = some (3333 / 10000) := by
      have := get_state_params_eval c7_inst
        ⟨"timbre", "Timbre", PARAM_TYPE_FLOAT, PARAM_TIMBRE, 0, 1⟩ hd
      rw [this]
      simp only [h1]
      have : round4 (33333 / 100000 : ℚ) = 3333 / 10000 := by
        unfold round4
        norm_num
      simp [this]
    show (g_shadow_params.foldl
      (restore_param_step (v2_get_param_state c7_inst).params)
      (state_restore_head c7_inst (v2_get_param_state c7_inst)).params) PARAM_TIMBRE
      = 3333 / 10000
    rw [hsplit, restore_fold_write _ _ _ _ _ hg (by decide)]
    apply clampEntry_of_bounds
    · show (0 : ℚ) ≤ 3333 / 10000
      norm_num
    · show (3333 : ℚ) / 10000 ≤ 1
      norm_num
  · have h1b : c7_inst_b.params PARAM_TIMBRE = 5 := rfl
    refine ⟨h1b, ?_, by norm_num⟩
    have hgb : (v2_get_param_state c7_inst_b).params "timbre" = some 5 := by
      have := get_state_params_eval c7_inst_b
        ⟨"timbre", "Timbre", PARAM_TYPE_FLOAT, PARAM_TIMBRE, 0, 1⟩ hd
      rw [this]
      simp only [h1b]
      have : round4 (5 : ℚ) = 5 := by
        unfold round4
        norm_num
      simp [this]
    show (g_shadow_params.foldl
      (restore_param_step (v2_get_param_state c7_inst_b).params)
      (state_restore_head c7_inst_b (v2_get_param_state c7_inst_b)).params) PARAM_TIMBRE
      = 1
    rw [hsplit, restore_fold_write _ _ _ _ _ hgb (by decide)]
    show clampEntry ⟨"timbre", "Timbre", PARAM_TYPE_FLOAT, PARAM_TIMBRE, 0, 1⟩ 5 = 1
    norm_num [clampEntry]

/-- **C7 (amended).** Serializing the full state through the `state` key and
restoring it reproduces all sixteen parameter values and the octave transpose
exactly, provided each float-typed value is an exact multiple of `1/10000`
(the `%.4f` serialization grain), each int-typed value is integral, every
value — float-typed and int-typed alike — sits in its declared `[min, max]`
range, and the octave transpose is in `[-3, 3]`.  Both side conditions on the
values are forced by the counterexample: without the grain condition a value
is rounded to four decimals on the way out (timbre `0.33333` restores as
`0.3333`), and without the range condition the restore loop clamps on the way
back in (a preset-loaded timbre of 5 restores as 1). -/
theorem c7_state_roundtrip_amended {F : Type} (inst : braids_instance_t F)
    (hfl : ∀ d ∈ g_shadow_params, d.ptype = PARAM_TYPE_FLOAT →
      ∃ k : ℤ, inst.params d.index = (k : ℚ) / 10000)
    (hint : ∀ d ∈ g_shadow_params, d.ptype = PARAM_TYPE_INT →
      ∃ k : ℤ, inst.params d.index = (k : ℚ))
    (hr : ∀ d ∈ g_shadow_params,
      d.min_val ≤ inst.params d.index ∧ inst.params d.index ≤ d.max_val)
    (ho : -3 ≤ inst.octave_transpose ∧ inst.octave_transpose ≤ 3) :
    (v2_set_param_state inst (v2_get_param_state inst)).params = inst.params ∧
    (v2_set_param_state inst (v2_get_param_state inst)).octave_transpose
      = inst.octave_transpose := by
  constructor
  · funext p
    obtain ⟨d, hd, hidx⟩ := g_shadow_params_index_surj p
    subst hidx
    obtain ⟨L1, L2, hsplit⟩ := List.append_of_mem hd
    have hnd := g_shadow_params_index_nodup
    rw [hsplit, List.map_append, List.map_cons] at hnd
    have hdis : ∀ e ∈ L2, e.index ≠ d.index := by
      have h2 := (List.nodup_append.mp hnd).2.1
      have h3 := (List.nodup_cons.mp h2).1
      intro e he heq
      exact h3 (heq ▸ List.mem_map_of_mem param_def_t.index he)
    have hval : (v2_get_param_state inst).params d.key = some (inst.params d.index) := by
      rw [get_state_params_eval inst d hd]
      cases hpt : d.ptype with
      | PARAM_TYPE_INT =>
          obtain ⟨k, hk⟩ := hint d hd hpt
          rw [if_pos rfl, hk, ratTruncZ_intCast]
      | PARAM_TYPE_FLOAT =>
          obtain ⟨k, hk⟩ := hfl d hd hpt
          rw [if_neg (by simp), hk, round4_int_div_10000]
    show (g_shadow_params.foldl
      (restore_param_step (v2_get_param_state inst).params)
      ((state_restore_head inst (v2_get_param_state inst)).params)) d.index
      = inst.params d.index
    rw [hsplit, restore_fold_write _ L1 d L2 _ hval hdis]
    exact clampEntry_of_bounds d _ (hr d hd).1 (hr d hd).2
  · show (state_restore_head inst (v2_get_param_state inst)).octave_transpose
      = inst.octave_transpose
    have hh : (state_restore_head inst (v2_get_param_state inst)).octave_transpose
        = clampZ (-3) 3 (ratTruncZ ((inst.octave_transpose : ℤ) : ℚ)) := rfl
    rw [hh, ratTruncZ_intCast, clampZ_of_bounds _ _ _ ho.1 ho.2]

theorem inst0_in_range : ∀ d ∈ g_shadow_params,
    d.min_val ≤ inst0.params d.index ∧ inst0.params d.index ≤ d.max_val := by
  intro d hd
  fin_cases hd <;> constructor <;> norm_num [inst0, NUM_SHAPES, g_shape_names]

/-- Witness for C7's amended theorem at the default instance, whose values
are all exact four-decimal quantities. -/
theorem c7_state_roundtrip_amended_witness :
    (∀ d ∈ g_shadow_params, d.ptype = PARAM_TYPE_FLOAT →
      ∃ k : ℤ, inst0.params d.index = (k : ℚ) / 10000) ∧
    (∀ d ∈ g_shadow_params, d.ptype = PARAM_TYPE_INT →
      ∃ k : ℤ, inst0.params d.index = (k : ℚ)) ∧
    (∀ d ∈ g_shadow_params,
      d.min_val ≤ inst0.params d.index ∧ inst0.params d.index ≤ d.max_val) ∧
    (-3 ≤ inst0.octave_transpose ∧ inst0.octave_transpose ≤ 3) ∧
    ((v2_set_param_state inst0 (v2_get_param_state inst0)).params = inst0.params ∧
      (v2_set_param_state inst0 (v2_get_param_state inst0)).octave_transpose
        = inst0.octave_transpose) := by
  have hfl : ∀ d ∈ g_shadow_params, d.ptype = PARAM_TYPE_FLOAT →
      ∃ k : ℤ, inst0.params d.index = (k : ℚ) / 10000 := by
    intro d hd hft
    fin_cases hd
    · simp at hft
    · exact ⟨5000, by norm_num [inst0]⟩
    · exact ⟨5000, by norm_num [inst0]⟩
    · exact ⟨0, by norm_num [inst0]⟩
    · exact ⟨5000, by norm_num [inst0]⟩
    · exact ⟨10000, by norm_num [inst0]⟩
    · exact ⟨3000, by norm_num [inst0]⟩
    · exact ⟨0, by norm_num [inst0]⟩
    · exact ⟨10000, by norm_num [inst0]⟩
    · exact ⟨0, by norm_num [inst0]⟩
    · exact ⟨0, by norm_num [inst0]⟩
    · exact ⟨0, by norm_num [inst0]⟩
    · exact ⟨3000, by norm_num [inst0]⟩
    · exact ⟨0, by norm_num [inst0]⟩
    · exact ⟨3000, by norm_num [inst0]⟩
    · exact ⟨7000, by norm_num [inst0]⟩
  have hint : ∀ d ∈ g_shadow_params, d.ptype = PARAM_TYPE_INT →
      ∃ k : ℤ, inst0.params d.index = (k : ℚ) := by
    intro d hd hit
    fin_cases hd
    · exact ⟨0, by norm_num [inst0]⟩
    all_goals simp at hit
  have ho : -3 ≤ inst0.octave_transpose ∧ inst0.octave_transpose ≤ 3 := by
    constructor <;> decide
  exact ⟨hfl, hint, inst0_in_range, ho,
    c7_state_roundtrip_amended inst0 hfl hint inst0_in_range ho⟩

/-- **C9.** Applying a preset with an out-of-range index (negative, or at or
past `preset_count`, which covers the zero-presets case) is a no-op on the
whole instance — parameter table, octave transpose and active preset name
included — both through `v2_apply_preset` and through the `preset` key of
`v2_set_param`; no error is raised (both functions are total). -/
theorem c9_apply_preset_out_of_range_noop {F : Type}
    (inst : braids_instance_t F) (idx : ℤ)
    (h : idx < 0 ∨ inst.preset_count ≤ idx) :
    v2_apply_preset inst idx = inst ∧ v2_set_param_preset inst idx = inst := by
  constructor
  · unfold v2_apply_preset
    rw [if_pos h]
  · unfold v2_set_param_preset
    rw [if_neg]
    omega

/-- Witness for C9: on the default instance (no presets loaded), applying
preset 5 is a no-op. -/
theorem c9_apply_preset_out_of_range_noop_witness :
    ((5 : ℤ) < 0 ∨ inst0.preset_count ≤ 5) ∧
    (v2_apply_preset inst0 5 = inst0 ∧ v2_set_param_preset inst0 5 = inst0) :=
  ⟨by right; decide, c9_apply_preset_out_of_range_noop inst0 5 (by right; decide)⟩
